import Mathlib

/-!
Verification of the image-pull engine of sthagen/moby-moby.

Part A embeds `src/daemon/internal/image/rootfs.go` directly.  Go slices
are modelled with an explicit heap of backing arrays so that the aliasing
behaviour of `append` and `slices.Clone` is captured faithfully: a slice
value is a (buffer index, length) pair, `append` writes in place when the
backing array still has capacity and reallocates otherwise, and
`slices.Clone` allocates a fresh backing array of exactly the slice's
length.

Part B embeds the `distribution` package's `pull_v2.go` (puller, schema
pullers, manifest-list handling, reference-store reconciliation, resumable
layer download), whose full source is embedded in this tree inside
src/.github/workflows/arm64.yml (lines 277-1364); the line numbers cited on
the definitions refer to that file.  The few helpers whose definitions live
in files genuinely absent from the tree (`filterManifests` from
pull_v2_unix.go, `addDigestReference` from distribution/pull.go,
`rootFSFromConfig` from distribution/config.go) are modelled from the
specification document and marked as such on the definition.
-/

namespace MobyPull

/-! ## Part A: RootFS over a Go-slice heap (src/daemon/internal/image/rootfs.go) -/

/-- DiffID is the content hash of an uncompressed layer (a digest string). -/
abbrev DiffID := String

/-- A Go slice value: index of its backing array in the heap, and its length.
The capacity of a slice is the length of its backing array. -/
structure GoSlice where
  buf : Nat
  len : Nat
deriving Repr, DecidableEq

/-- The heap of backing arrays for `DiffID` slices. -/
structure SliceHeap where
  arrays : List (List DiffID)
deriving Repr, DecidableEq

/-- Read a backing array (out-of-range reads give the empty array). -/
def SliceHeap.readArr (h : SliceHeap) (i : Nat) : List DiffID :=
  h.arrays.getD i []

/-- Overwrite a backing array in place. -/
def SliceHeap.writeArr (h : SliceHeap) (i : Nat) (a : List DiffID) : SliceHeap :=
  ⟨h.arrays.set i a⟩

/-- Allocate a fresh backing array, returning its index. -/
def SliceHeap.alloc (h : SliceHeap) (a : List DiffID) : SliceHeap × Nat :=
  (⟨h.arrays ++ [a]⟩, h.arrays.length)

/-- The elements a slice denotes: the first `len` entries of its backing array. -/
def GoSlice.elems (s : GoSlice) (h : SliceHeap) : List DiffID :=
  (h.readArr s.buf).take s.len

/-- Go's `append(s, x)`: if the backing array still has capacity, write the
new element in place at position `len` (visible through every alias of the
backing array); otherwise allocate a fresh backing array holding the old
elements followed by `x`. -/
def goAppend (h : SliceHeap) (s : GoSlice) (x : DiffID) : SliceHeap × GoSlice :=
  let arr := h.readArr s.buf
  if s.len < arr.length then
    (h.writeArr s.buf (arr.set s.len x), ⟨s.buf, s.len + 1⟩)
  else
    let p := h.alloc (s.elems h ++ [x])
    (p.1, ⟨p.2, s.len + 1⟩)

/-- TypeLayers is used for RootFS.Type for filesystems organized into layers
(rootfs.go line 14). -/
def TypeLayers : String := "layers"

/-- RootFS describes an image's root filesystem (rootfs.go lines 19-22).
The Go field `Type` is spelled `typ` here because `Type` is reserved in Lean. -/
structure RootFS where
  typ : String
  DiffIDs : GoSlice
deriving Repr, DecidableEq

/-- NewRootFS returns an empty RootFS struct (rootfs.go lines 25-27).  The
nil `DiffIDs` slice is modelled as a fresh zero-capacity backing array,
which has the same observable behaviour (appending always reallocates). -/
def NewRootFS (h : SliceHeap) : SliceHeap × RootFS :=
  let p := h.alloc []
  (p.1, ⟨TypeLayers, ⟨p.2, 0⟩⟩)

/-- Append appends a new diffID to rootfs (rootfs.go lines 30-32):
`r.DiffIDs = append(r.DiffIDs, id)`. -/
def RootFS.Append (r : RootFS) (h : SliceHeap) (id : DiffID) : SliceHeap × RootFS :=
  let p := goAppend h r.DiffIDs id
  (p.1, { r with DiffIDs := p.2 })

/-- Clone returns a copy of the RootFS (rootfs.go lines 35-40): the same
`Type` and `slices.Clone(r.DiffIDs)`, a fresh backing array holding exactly
the slice's elements. -/
def RootFS.Clone (r : RootFS) (h : SliceHeap) : SliceHeap × RootFS :=
  let p := h.alloc (r.DiffIDs.elems h)
  (p.1, ⟨r.typ, ⟨p.2, r.DiffIDs.len⟩⟩)

/-- The diff-ID sequence a RootFS denotes in a given heap. -/
def RootFS.diffIDList (r : RootFS) (h : SliceHeap) : List DiffID :=
  r.DiffIDs.elems h

/-- Well-formedness of a RootFS value against a heap: its slice points at an
allocated backing array and its length is within the array's capacity. -/
def RootFS.WF (r : RootFS) (h : SliceHeap) : Prop :=
  r.DiffIDs.buf < h.arrays.length ∧ r.DiffIDs.len ≤ (h.readArr r.DiffIDs.buf).length

instance (r : RootFS) (h : SliceHeap) : Decidable (r.WF h) := by
  unfold RootFS.WF; infer_instance

/-! ## Part B: the pull engine
(`pull_v2.go` of the distribution package, embedded in
src/.github/workflows/arm64.yml lines 277-1364; line numbers below refer to
that file) -/

/-- Digest is a content address string. -/
abbrev Digest := String

/-- ImageID is the digest of an image configuration. -/
abbrev ImageID := String

/-- Content addressing: the digest of a byte string is modelled as the
string tagged with its hash algorithm, which keeps the model executable
while preserving injectivity of content addressing. -/
def digestOf (content : String) : Digest := "sha256:" ++ content

/-- One schema1 history entry as parsed from its V1Compatibility JSON
(arm64.yml lines 836-851 and 1293-1305): the V1 image ID, its declared
parent ID, and the `throwaway` marker.  JSON decoding and v1.ValidateID's
64-hex-character format check are the embedding boundary: entries arrive
parsed and valid IDs are non-empty. -/
structure V1Layer where
  id : String
  parent : String
  throwaway : Bool
deriving Repr, DecidableEq

/-- A platform (os/architecture pair) for manifest-list selection. -/
structure Platform where
  os : String
  arch : String
deriving Repr, DecidableEq

/-- The manifest variants of pullTag's type switch (arm64.yml lines
713-748).  schema2 and OCI manifests have the same shape (config
descriptor plus ordered layer descriptors) and both dispatch through
schema2ManifestDigest to pullSchema2Layers, so they share the `schema2`
constructor.  Unknown media types (the switch's default) are outside the
model. -/
inductive Manifest where
  | schema2 (configDigest : Digest) (layerDigests : List Digest)
  | schema1 (history : List V1Layer)
  | mlist (entries : List (Platform × Digest))
deriving Repr, DecidableEq

/-- An image configuration reduced to what the engine inspects: the root
filesystem's diff-IDs (the result of rootFSFromConfig, whose source is in
distribution/config.go, not this tree; the blob is carried parsed). -/
structure ImgConfig where
  diffIDs : List DiffID
deriving Repr, DecidableEq

/-- The raw serialization of a config; its content digest is the image ID. -/
def ImgConfig.json (c : ImgConfig) : String :=
  String.intercalate "," c.diffIDs

/-- The remote repository as data: manifests by digest, config blobs by
digest, the diff-ID each layer blob yields when downloaded (the external
DownloadManager's per-layer result), and the repository's tags.  The
registry is content-addressed, so the manifest-digest checks of
schema2ManifestDigest and verifySchema1Manifest (arm64.yml lines
1238-1259, 1261-1275) hold by construction: a fetched manifest's digest is
its lookup key. -/
structure Registry where
  manifests : List (Digest × Manifest)
  blobs : List (Digest × ImgConfig)
  layerDiffIDs : List (Digest × DiffID)
  tags : List (String × Digest)
deriving Repr, DecidableEq

/-- The external image store (ImageStore.Get/Put of the pull config). -/
structure ImageStore where
  images : List (ImageID × String)
deriving Repr, DecidableEq

/-- `ImageStore.Get` succeeding: the image ID exists in the store. -/
def ImageStore.contains (s : ImageStore) (i : ImageID) : Bool :=
  (s.images.lookup i).isSome

/-- `ImageStore.Put(configJSON)` (arm64.yml lines 874, 1051): stores the
blob under its own content digest and returns that digest as the image ID;
content-addressed put is idempotent. -/
def ImageStore.put (s : ImageStore) (content : String) : ImageStore × ImageID :=
  let i := digestOf content
  (if s.contains i then s else ⟨s.images ++ [(i, content)]⟩, i)

/-- A local image reference: a tagged name, a canonical (digest) name, or a
bare name (which means pull every tag). -/
inductive Ref where
  | tagged (name tag : String)
  | canonical (name : String) (dgst : Digest)
  | nameOnly (name : String)
deriving Repr, DecidableEq

/-- The repository name of a reference. -/
def Ref.name : Ref → String
  | .tagged n _ => n
  | .canonical n _ => n
  | .nameOnly n => n

/-- The tag of a tagged reference (empty for the others, which never reach
the tag-association path). -/
def Ref.tagOf : Ref → String
  | .tagged _ t => t
  | _ => ""

/-- Association-list read keyed by references. -/
def refGet : List (Ref × ImageID) → Ref → Option ImageID
  | [], _ => none
  | (r', i) :: rest, r => if r' = r then some i else refGet rest r

/-- Association-list write keyed by references (insert or overwrite). -/
def refSet : List (Ref × ImageID) → Ref → ImageID → List (Ref × ImageID)
  | [], r, i => [(r, i)]
  | (r', i') :: rest, r, i =>
    if r' = r then (r, i) :: rest else (r', i') :: refSet rest r i

/-- The pull error taxonomy of the engine (errRootFSMismatch and the
noMatchesErr type are arm64.yml lines 316, 1202-1208; the others stand for
the fmt.Errorf/typed errors of the corresponding return paths). -/
inductive PullError where
  | errRootFSMismatch
  | noMatchesErr
  | manifestNotFound
  | blobNotFound
  | tagNotFound
  | internalErr
  | emptyManifest
  | duplicateID (id : String)
  | invalidParent
  | invalidBaseParent
  | digestVerificationFailed
  | imageConfigPull (e : PullError)
  | refStoreError
  | nestedTooDeep
deriving Repr, DecidableEq

/-- The external reference store (ReferenceStore of the pull config).  Its
write operations are fallible (storage/validation errors of the external
store); `failing` lists the references on which the external store's
writes fail, modelling that fault channel. -/
structure RefStore where
  entries : List (Ref × ImageID)
  failing : List Ref
deriving Repr, DecidableEq

/-- `ReferenceStore.Get(ref)` (total; the store's ErrDoesNotExist is the
`none` case). -/
def RefStore.get (s : RefStore) (r : Ref) : Option ImageID :=
  refGet s.entries r

/-- `ReferenceStore.AddDigest(dgstRef, id, force)` with force = true. -/
def RefStore.addDigest (s : RefStore) (name : String) (d : Digest) (i : ImageID) :
    Except PullError RefStore :=
  if (Ref.canonical name d) ∈ s.failing then .error .refStoreError
  else .ok ⟨refSet s.entries (.canonical name d) i, s.failing⟩

/-- `ReferenceStore.AddTag(ref, id, force)` with force = true. -/
def RefStore.addTag (s : RefStore) (name tag : String) (i : ImageID) :
    Except PullError RefStore :=
  if (Ref.tagged name tag) ∈ s.failing then .error .refStoreError
  else .ok ⟨refSet s.entries (.tagged name tag) i, s.failing⟩

/-- Modelled from the spec: `addDigestReference` is defined in
distribution/pull.go, which is not in this tree; per the spec (§4.3, §6)
it adds the digest (name@manifestDigest → imageID) association
idempotently: when the canonical reference already has a mapping it
changes nothing, otherwise it calls AddDigest. -/
def addDigestReference (s : RefStore) (name : String) (dgst : Digest)
    (id : ImageID) : Except PullError RefStore :=
  match s.get (.canonical name dgst) with
  | some _ => .ok s
  | none => s.addDigest name dgst id

/-- The local stores the pull engine mutates. -/
structure LocalState where
  imageStore : ImageStore
  refStore : RefStore
deriving Repr, DecidableEq

/-! ### Schema1 history validation (fixManifestLayers) -/

/-- The duplicate scan of fixManifestLayers (arm64.yml lines 1313-1323):
walk the IDs carrying the previous ID and the set of all IDs seen so far;
an ID equal to the immediately preceding one is skipped (the backwards
loop handles those), while any other already-seen ID is the "appears
multiple times in manifest" error. -/
def checkDuplicateIDs : List String → String → List String → Option String
  | [], _, _ => none
  | i :: rest, lastID, idmap =>
    if i ≠ lastID ∧ i ∈ idmap then some i
    else checkDuplicateIDs rest i (i :: idmap)

/-- The backwards loop of fixManifestLayers (arm64.yml lines 1326-1333),
written as recursion that processes the base-ward pairs first, as the Go
loop does: an entry whose ID equals the entry below it is removed;
otherwise its parent must equal the ID of the entry below. -/
def fixLayersLoop : List V1Layer → Except PullError (List V1Layer)
  | [] => .ok []
  | [l] => .ok [l]
  | l :: l' :: rest =>
    match fixLayersLoop (l' :: rest) with
    | .error e => .error e
    | .ok kept =>
      if l.id = l'.id then .ok kept
      else if l.parent ≠ l'.id then .error .invalidParent
      else .ok (l :: kept)

/-- The pairwise parent condition enforced by the backwards loop: for every
adjacent pair with distinct IDs, the upper entry's parent equals the lower
entry's ID (used to state the loop's behaviour). -/
def chainOK : List V1Layer → Bool
  | [] => true
  | [_] => true
  | l :: l' :: rest =>
    (if l.id = l'.id then true else l.parent = l'.id) && chainOK (l' :: rest)

/-- fixManifestLayers (arm64.yml lines 1292-1336): the base (last) layer
must have an empty parent except on windows (line 1307, where a base layer
may point outside the manifest); the duplicate scan rejects non-adjacent
repeated IDs; the backwards loop removes adjacent repeats and checks the
parent chain.  An empty history is unreachable here (verifySchema1Manifest
rejects it first) and maps to that same error. -/
def fixManifestLayers (goos : String) (layers : List V1Layer) :
    Except PullError (List V1Layer) :=
  match layers.getLast? with
  | none => .error .emptyManifest
  | some base =>
    if base.parent ≠ "" ∧ goos ≠ "windows" then .error .invalidBaseParent
    else
      match checkDuplicateIDs (layers.map (·.id)) "" [] with
      | some i => .error (.duplicateID i)
      | none => fixLayersLoop layers

/-! ### Schema pullers -/

/-- verifySchema1Manifest (arm64.yml lines 1261-1288): the canonical-digest
check holds by construction in the content-addressed registry model;
schema-version and the layer/history length agreement are carried by the
single parsed history list; a manifest with no layers is rejected. -/
def verifySchema1Manifest (history : List V1Layer) :
    Except PullError (List V1Layer) :=
  if history.isEmpty then .error .emptyManifest else .ok history

/-- pullSchema1 (arm64.yml lines 800-882): verify the manifest, fix the
layer history, hand the non-throwaway layers to the external
DownloadManager bottom-up, synthesize the modern config from the V1
history (v1.MakeConfigFromV1Config, external to this file, modelled as a
deterministic serialization of the kept IDs), and commit it to the image
store.  The returned count is the number of layers downloaded. -/
def pullSchema1 (goos : String) (st : LocalState) (history : List V1Layer) :
    LocalState × Except PullError (ImageID × Nat) :=
  match verifySchema1Manifest history with
  | .error e => (st, .error e)
  | .ok verified =>
    match fixManifestLayers goos verified with
    | .error e => (st, .error e)
    | .ok kept =>
      let toDownload := kept.filter (fun l => !l.throwaway)
      let configJSON := "v1config:" ++ String.intercalate ";" (kept.map (·.id))
      let p := st.imageStore.put configJSON
      ({ st with imageStore := p.1 }, .ok (p.2, toDownload.length))

/-- The external DownloadManager.Download (xfer package) over the layer
descriptors: each blob digest resolves to the diff-ID of its decompressed
content, in manifest order; a failing layer download is an error. -/
def downloadLayers (reg : Registry) : List Digest → Except PullError (List DiffID)
  | [] => .ok []
  | d :: ds =>
    match reg.layerDiffIDs.lookup d with
    | none => .error .blobNotFound
    | some diff => (downloadLayers reg ds).map (fun rest => diff :: rest)

/-- pullSchema2Config (arm64.yml lines 1178-1200): fetch the config blob by
digest (the bounded retry/backoff loop around the fetch is not observable
in this deterministic model) and verify its digest; verification failure
is an error. -/
def pullSchema2Config (reg : Registry) (dgst : Digest) :
    Except PullError ImgConfig :=
  match reg.blobs.lookup dgst with
  | none => .error .blobNotFound
  | some cfg =>
    if digestOf cfg.json ≠ dgst then .error .digestVerificationFailed
    else .ok cfg

/-- pullSchema2Layers (arm64.yml lines 884-1057), serialized: if the target
config digest already exists in the image store (lines 885-889) return it
with no downloads and no state change; otherwise fetch and verify the
config blob (its errors are wrapped as imageConfigPullError, line 922, and
preferred over layer errors, lines 996-999 — preserved by fetching the
config first), download the layers through the external DownloadManager,
cross-check the downloaded diff-IDs against the config's root filesystem
in count and position (lines 1040-1048, errRootFSMismatch), and only then
commit the config to the image store (line 1051), whose content digest is
the image ID. -/
def pullSchema2Layers (reg : Registry) (st : LocalState) (target : Digest)
    (layers : List Digest) : LocalState × Except PullError (ImageID × Nat) :=
  if st.imageStore.contains target then (st, .ok (target, 0))
  else
    match pullSchema2Config reg target with
    | .error e => (st, .error (.imageConfigPull e))
    | .ok cfg =>
      match downloadLayers reg layers with
      | .error e => (st, .error e)
      | .ok downloaded =>
        if downloaded.length ≠ cfg.diffIDs.length then
          (st, .error .errRootFSMismatch)
        else if downloaded ≠ cfg.diffIDs then (st, .error .errRootFSMismatch)
        else
          let p := st.imageStore.put cfg.json
          ({ st with imageStore := p.1 }, .ok (p.2, layers.length))

/-! ### Manifest lists -/

/-- Modelled from the spec: `filterManifests` is platform-specific code
(pull_v2_unix.go / pull_v2_windows.go), not in this tree; per the spec
(§4.6) it ranks the list's entries by platform compatibility, best match
first.  Modelled as the entries exactly matching the requested platform,
in list order. -/
def filterManifests (entries : List (Platform × Digest)) (p : Platform) :
    List (Platform × Digest) :=
  entries.filter (fun e => decide (e.1 = p))

/-- One iteration of pullManifestList's candidate loop (arm64.yml lines
1112-1168) as a fold step; `none` in the accumulator means no candidate has
produced a final outcome yet.  A manifest-fetch failure and any outcome of
a nested schema1/schema2/OCI pull (error or success) are final; for a
nested manifest list, `if !errors.As(err, &noMatches) { continue }` (lines
1157-1163) makes any nested error other than noMatchesErr move on to the
next candidate, while a nested noMatchesErr falls through to the `return`
and is final. -/
def mlistStep (goos : String) (reg : Registry)
    (nested : LocalState → List (Platform × Digest) →
      LocalState × Except PullError (ImageID × Nat))
    (acc : LocalState × Option (Except PullError (ImageID × Nat)))
    (e : Platform × Digest) :
    LocalState × Option (Except PullError (ImageID × Nat)) :=
  match acc with
  | (st, none) =>
    match reg.manifests.lookup e.2 with
    | none => (st, some (.error .manifestNotFound))
    | some (.schema1 hist) =>
      let p := pullSchema1 goos st hist
      (p.1, some p.2)
    | some (.schema2 cd lds) =>
      let p := pullSchema2Layers reg st cd lds
      (p.1, some p.2)
    | some (.mlist entries') =>
      match nested st entries' with
      | (st', .error e') =>
        if e' = .noMatchesErr then (st', some (.error .noMatchesErr))
        else (st', none)
      | (st', .ok v) => (st', some (.ok v))
  | r => r

/-- pullManifestList (arm64.yml lines 1098-1171): rank the entries for the
requested platform and iterate them with `mlistStep`; exhausting the
candidates returns noMatchesErr (line 1170).  `fuel` bounds nested
manifest-list recursion, which in Go is bounded only by the call stack. -/
def pullManifestList (goos : String) : Nat → Registry → Platform → LocalState →
    List (Platform × Digest) → LocalState × Except PullError (ImageID × Nat)
  | 0, _, _, st, _ => (st, .error .nestedTooDeep)
  | fuel + 1, reg, platform, st, entries =>
    match (filterManifests entries platform).foldl
        (mlistStep goos reg
          (fun st' es => pullManifestList goos fuel reg platform st' es))
        (st, none) with
    | (st', none) => (st', .error .noMatchesErr)
    | (st', some r) => (st', r)

/-- The candidate loop of pullManifestList written as explicit recursion
over the ranked candidates; the foldl inside `pullManifestList` is proved
equal to it. -/
def pullMatches (goos : String) (reg : Registry) (platform : Platform)
    (fuel : Nat) : LocalState → List (Platform × Digest) →
      LocalState × Option (Except PullError (ImageID × Nat))
  | st, [] => (st, none)
  | st, e :: rest =>
    match reg.manifests.lookup e.2 with
    | none => (st, some (.error .manifestNotFound))
    | some (.schema1 hist) =>
      let p := pullSchema1 goos st hist
      (p.1, some p.2)
    | some (.schema2 cd lds) =>
      let p := pullSchema2Layers reg st cd lds
      (p.1, some p.2)
    | some (.mlist entries') =>
      match pullManifestList goos fuel reg platform st entries' with
      | (st', .error e') =>
        if e' = .noMatchesErr then (st', some (.error .noMatchesErr))
        else pullMatches goos reg platform fuel st' rest
      | (st', .ok v) => (st', some (.ok v))

/-! ### pullTag and pullRepository -/

/-- The tag/digest resolution at the top of pullTag (arm64.yml lines
635-651): a canonical reference carries its digest; a tagged reference is
resolved through the tag service; a bare name is the "reference has
neither a tag nor a digest" internal error. -/
def resolveTagOrDigest (reg : Registry) : Ref → Except PullError Digest
  | .canonical _ d => .ok d
  | .tagged _ t =>
    match reg.tags.lookup t with
    | some d => .ok d
    | none => .error .tagNotFound
  | .nameOnly _ => .error .internalErr

/-- The manifest type switch of pullTag (arm64.yml lines 713-748): schema1
manifests go to pullSchema1 (RequireSchema2 and the deprecation notice are
configuration/logging), schema2 and OCI manifests go to pullSchema2Layers,
manifest lists to pullManifestList.  The result carries the image ID and
the number of layer downloads performed. -/
def pullManifest (goos : String) (fuel : Nat) (reg : Registry)
    (platform : Platform) (st : LocalState) :
    Manifest → LocalState × Except PullError (ImageID × Nat)
  | .schema1 hist => pullSchema1 goos st hist
  | .schema2 cd lds => pullSchema2Layers reg st cd lds
  | .mlist entries => pullManifestList goos fuel reg platform st entries

/-- The add-associations tail of pullTag's reconciliation (arm64.yml lines
762-773): a canonical reference gets AddDigest on itself; any other
reference gets addDigestReference for the manifest digest and then AddTag
— an AddTag failure is returned after the digest association has already
been made, leaving it in place. -/
def pullTagAdd (st' : LocalState) (ref : Ref) (dgst : Digest) (id : ImageID) :
    LocalState × Except PullError Bool :=
  match ref with
  | .canonical nm d =>
    match st'.refStore.addDigest nm d id with
    | .ok rs => ({ st' with refStore := rs }, .ok true)
    | .error e => (st', .error e)
  | _ =>
    match addDigestReference st'.refStore ref.name dgst id with
    | .error e => (st', .error e)
    | .ok rs =>
      match rs.addTag ref.name ref.tagOf id with
      | .error e => ({ st' with refStore := rs }, .error e)
      | .ok rs2 => ({ st' with refStore := rs2 }, .ok true)

/-- pullTag (arm64.yml lines 626-776): resolve the reference, fetch the
manifest by digest (the deprecated fetch-by-tag fallback needs a registry
that fails digest fetches, which the content-addressed model cannot
express; validateMediaType is configuration not carried by the model),
dispatch on the manifest type, and reconcile the reference store (lines
752-775): a reference already mapping to the same image ID only gets
addDigestReference and reports "no update" (false); otherwise the
associations are added by `pullTagAdd` and "new content" (true) is
reported.  In the content-addressed model the manifest digest equals the
resolved digest (schema2ManifestDigest). -/
def pullTag (goos : String) (fuel : Nat) (reg : Registry) (platform : Platform)
    (st : LocalState) (ref : Ref) : LocalState × Except PullError Bool :=
  match resolveTagOrDigest reg ref with
  | .error e => (st, .error e)
  | .ok dgst =>
    match reg.manifests.lookup dgst with
    | none => (st, .error .manifestNotFound)
    | some m =>
      match pullManifest goos fuel reg platform st m with
      | (st', .error e) => (st', .error e)
      | (st', .ok (id, _n)) =>
        match st'.refStore.get ref with
        | some oldTagID =>
          if oldTagID = id then
            match addDigestReference st'.refStore ref.name dgst id with
            | .ok rs => ({ st' with refStore := rs }, .ok false)
            | .error e => (st', .error e)
          else pullTagAdd st' ref dgst id
        | none => pullTagAdd st' ref dgst id

/-- The sequential all-tags loop of pullRepository (arm64.yml lines
388-411): pull each tag in order, aggregating whether any tag produced new
content; an error pulling any tag aborts the whole loop (the fallbackError
unwrap is transport-fallback plumbing outside the model). -/
def pullAllTagsGo (goos : String) (fuel : Nat) (reg : Registry)
    (platform : Platform) (name : String) :
    LocalState → List String → LocalState × Except PullError Bool
  | st, [] => (st, .ok false)
  | st, t :: ts =>
    match pullTag goos fuel reg platform st (.tagged name t) with
    | (st', .error e) => (st', .error e)
    | (st', .ok updated) =>
      match pullAllTagsGo goos fuel reg platform name st' ts with
      | (st'', .error e) => (st'', .error e)
      | (st'', .ok any) => (st'', .ok (updated || any))

/-- pullRepository (arm64.yml lines 380-417): a reference that is not
name-only pulls exactly that tag or digest; a bare name enumerates all of
the repository's tags and pulls each sequentially.  The returned Bool is
what writeStatus prints: true for "Downloaded newer image", false for
"Image is up to date". -/
def pullRepository (goos : String) (fuel : Nat) (reg : Registry)
    (platform : Platform) (st : LocalState) (ref : Ref) :
    LocalState × Except PullError Bool :=
  match ref with
  | .nameOnly n => pullAllTagsGo goos fuel reg platform n st (reg.tags.map (·.1))
  | _ => pullTag goos fuel reg platform st ref

/-! ### Resumable layer download (layerDescriptor.Download) -/

/-- The digest of a byte stream (bytes as naturals), for layer downloads. -/
def bytesDigest (l : List Nat) : Digest := digestOf (toString l)

/-- The state a layerDescriptor carries across Download attempts (arm64.yml
lines 431-440): the temp file's bytes (none = no file yet; its length is
the resume offset) and the digest verifier's accumulated bytes (none =
fresh verifier). -/
structure LayerState where
  tmpFile : Option (List Nat)
  verifier : Option (List Nat)
deriving Repr, DecidableEq

/-- The outcome of one layerDescriptor.Download call: a verified stream
handed off, a plain (retryable) error, or a DoNotRetry error, each with
the descriptor's state after the call. -/
inductive DownloadOutcome where
  | handedOff (bytes : List Nat) (next : LayerState)
  | retryable (next : LayerState)
  | doNotRetry (next : LayerState)
deriving Repr, DecidableEq

/-- truncateDownloadFile (arm64.yml lines 604-619): rewind and truncate the
temp file and drop the verifier, so the next attempt redoes the download
from offset zero. -/
def truncateDownloadFile (_s : LayerState) : LayerState :=
  { tmpFile := some [], verifier := none }

/-- layerDescriptor.Download (arm64.yml lines 457-593), the data path:
compute the resume offset from the temp file (created empty at offset zero
when absent, lines 465-487), read the remote from that offset (`fetch`; an
honest remote serves `blob.drop offset`), append the received bytes to the
temp file while the verifier accumulates them (line 537), and check the
digest (lines 550-563): on verification failure after a resume (nonzero
offset) the file is truncated and a plain retryable error is returned,
while at offset zero the failure is DoNotRetry.  On success the file is
handed off and the descriptor's reference to it cleared (lines 570-592).
Seek/create I/O failures and the byte-range and oversized-resume restarts
(lines 497-528, 539-544) are fault channels not carried by this
deterministic model. -/
def layerDownload (expected : Digest) (fetch : Nat → List Nat) (s : LayerState) :
    DownloadOutcome :=
  let tmp := s.tmpFile.getD []
  let offset := tmp.length
  let received := fetch offset
  let v := s.verifier.getD []
  if bytesDigest (v ++ received) = expected then
    .handedOff (tmp ++ received) { tmpFile := none, verifier := none }
  else if offset = 0 then
    .doNotRetry { tmpFile := some (tmp ++ received), verifier := some (v ++ received) }
  else
    .retryable (truncateDownloadFile s)

/-! ## Concrete fixtures used by the witness theorems -/

/-- A one-array heap for the RootFS witnesses. -/
def hWit : SliceHeap := ⟨[["a", "b"]]⟩

/-- A RootFS viewing the whole array of `hWit`. -/
def rWit : RootFS := ⟨"layers", ⟨0, 2⟩⟩

/-- A schema1 history with a non-adjacent duplicate layer ID (base parent
empty, so only the duplicate check can reject it). -/
def dupLayers : List V1Layer :=
  [⟨"a", "x", false⟩, ⟨"x", "a", false⟩, ⟨"a", "", false⟩]

/-- The expected blob bytes for the download witnesses. -/
def goodBytes : List Nat := [1, 2]

/-- A remote that serves corrupt data for ranged (resumed) reads but the
correct blob from offset zero. -/
def fetchWit : Nat → List Nat := fun off => if off = 0 then goodBytes else [9]

/-- An empty local state (empty image store, empty and reliable reference
store). -/
def st0 : LocalState := ⟨⟨[]⟩, ⟨[], []⟩⟩

/-- The platform requested in the concrete checks. -/
def pW : Platform := ⟨"linux", "arm64"⟩

/-- A registry exercising nested manifest lists: "dNest" is a manifest list
whose only candidate's manifest is missing (so its nested pull fails with a
non-noMatchesErr error), "dEmpty" is an empty manifest list (so its nested
pull fails with noMatchesErr), and "dGood" is a layerless schema2 manifest
whose config blob is stored under its content digest. -/
def regC5 : Registry :=
  ⟨[("dNest", .mlist [(pW, "dMissing")]), ("dEmpty", .mlist []),
    ("dGood", .schema2 "sha256:" [])],
  [("sha256:", ⟨[]⟩)], [], []⟩

/-- A registry with one schema2 manifest "mdig" (config "sha256:d1", one
layer "L1" yielding diff-ID "d1") and two tags: "t1" resolves to it, "t2"
resolves to a digest with no manifest. -/
def regT : Registry :=
  ⟨[("mdig", .schema2 "sha256:d1" ["L1"])],
  [("sha256:d1", ⟨["d1"]⟩)],
  [("L1", "d1")],
  [("t1", "mdig"), ("t2", "missing")]⟩

/-- The local state after a successful pull of regT's manifest from `st0`,
before reference reconciliation. -/
def stA : LocalState := ⟨⟨[("sha256:d1", "d1")]⟩, ⟨[], []⟩⟩

/-- A registry whose downloaded layer diff-ID ("y") disagrees with the
config's declared diff-ID ("x"). -/
def regMis : Registry :=
  ⟨[("dm", .schema2 "sha256:x" ["L1"])],
  [("sha256:x", ⟨["x"]⟩)],
  [("L1", "y")], []⟩

/-! ## Theorems -/

theorem readArr_alloc_self (h : SliceHeap) (a : List DiffID) :
    (h.alloc a).1.readArr (h.alloc a).2 = a := by
  show (h.arrays ++ [a]).getD h.arrays.length [] = a
  rw [List.getD_append_right _ _ _ _ (Nat.le_refl _), Nat.sub_self]
  rfl

theorem readArr_alloc_lt (h : SliceHeap) (a : List DiffID) (i : Nat)
    (hi : i < h.arrays.length) : (h.alloc a).1.readArr i = h.readArr i :=
  List.getD_append _ _ _ _ hi

theorem readArr_write_self (h : SliceHeap) (i : Nat) (a : List DiffID)
    (hi : i < h.arrays.length) : (h.writeArr i a).readArr i = a := by
  show (h.arrays.set i a).getD i [] = a
  rw [List.getD_eq_getElem _ _ (by simpa using hi)]
  exact List.getElem_set_self _

theorem take_set_concat {α : Type} : ∀ (l : List α) (n : Nat) (a : α), n < l.length →
    (l.set n a).take (n + 1) = l.take n ++ [a]
  | [], n, _, h => absurd h (by simp)
  | _ :: _, 0, _, _ => by simp
  | x :: xs, n + 1, a, h => by
    have ih := take_set_concat xs n a (by simpa using h)
    simp only [List.set, List.take, List.cons_append, ih]

theorem elems_length (h : SliceHeap) (s : GoSlice)
    (hlen : s.len ≤ (h.readArr s.buf).length) : (s.elems h).length = s.len := by
  simp [GoSlice.elems, Nat.min_eq_left hlen]

/-- Claim C10: after `r.Append(d)` the diff-ID sequence equals the previous
sequence with `d` appended as the single new last element (so its length
grows by exactly one and the existing prefix is unchanged) and the `Type`
field is unchanged; `NewRootFS()` starts with type "layers" and an empty
diff-ID sequence. -/
theorem rootfs_append_spec (h h0 : SliceHeap) (r : RootFS) (d : DiffID)
    (hwf : r.WF h) :
    (r.Append h d).2.diffIDList (r.Append h d).1 = r.diffIDList h ++ [d] ∧
    ((r.Append h d).2.diffIDList (r.Append h d).1).length
      = (r.diffIDList h).length + 1 ∧
    (r.Append h d).2.typ = r.typ ∧
    (NewRootFS h0).2.typ = TypeLayers ∧
    (NewRootFS h0).2.diffIDList (NewRootFS h0).1 = [] := by
  obtain ⟨hbuf, hlen⟩ := hwf
  have hmain : (r.Append h d).2.diffIDList (r.Append h d).1 = r.diffIDList h ++ [d] := by
    unfold RootFS.Append goAppend RootFS.diffIDList
    by_cases hc : r.DiffIDs.len < (h.readArr r.DiffIDs.buf).length
    · simp only [hc, if_true]
      show ((h.writeArr r.DiffIDs.buf ((h.readArr r.DiffIDs.buf).set r.DiffIDs.len d)).readArr
        r.DiffIDs.buf).take (r.DiffIDs.len + 1) = _
      rw [readArr_write_self _ _ _ hbuf, take_set_concat _ _ _ hc]
      rfl
    · simp only [hc, if_false]
      show ((h.alloc (r.DiffIDs.elems h ++ [d])).1.readArr
          (h.alloc (r.DiffIDs.elems h ++ [d])).2).take (r.DiffIDs.len + 1)
        = r.DiffIDs.elems h ++ [d]
      rw [readArr_alloc_self]
      refine List.take_of_length_le ?_
      rw [List.length_append, elems_length h _ hlen]
      simp
  refine ⟨hmain, ?_, rfl, rfl, ?_⟩
  · rw [hmain, List.length_append]; rfl
  · show ((h0.alloc []).1.readArr (h0.alloc []).2).take 0 = []
    rfl

/-- Witness for C10 at a concrete heap and RootFS. -/
theorem rootfs_append_spec_witness :
    rWit.WF hWit ∧
    ((rWit.Append hWit "c").2.diffIDList (rWit.Append hWit "c").1
        = rWit.diffIDList hWit ++ ["c"] ∧
      ((rWit.Append hWit "c").2.diffIDList (rWit.Append hWit "c").1).length
        = (rWit.diffIDList hWit).length + 1 ∧
      (rWit.Append hWit "c").2.typ = rWit.typ ∧
      (NewRootFS hWit).2.typ = TypeLayers ∧
      (NewRootFS hWit).2.diffIDList (NewRootFS hWit).1 = []) :=
  ⟨by decide, rootfs_append_spec hWit hWit rWit "c" (by decide)⟩

/-- Claim C9: `r.Clone()` is structurally equal to `r` (same type, same
diff-ID sequence), and appending to the clone afterwards leaves the
original's diff-ID sequence unchanged (the clone's backing array is
fresh, so no aliasing). -/
theorem rootfs_clone_spec (h : SliceHeap) (r : RootFS) (d : DiffID)
    (hwf : r.WF h) :
    (r.Clone h).2.typ = r.typ ∧
    (r.Clone h).2.diffIDList (r.Clone h).1 = r.diffIDList h ∧
    r.diffIDList (((r.Clone h).2.Append (r.Clone h).1 d).1) = r.diffIDList h := by
  obtain ⟨hbuf, hlen⟩ := hwf
  have helems : (h.alloc (r.DiffIDs.elems h)).1.readArr (h.alloc (r.DiffIDs.elems h)).2
      = r.DiffIDs.elems h := readArr_alloc_self h _
  refine ⟨rfl, ?_, ?_⟩
  · show ((h.alloc (r.DiffIDs.elems h)).1.readArr
        (h.alloc (r.DiffIDs.elems h)).2).take r.DiffIDs.len = r.DiffIDs.elems h
    rw [helems]
    exact List.take_of_length_le (by rw [elems_length h _ hlen])
  · unfold RootFS.Append goAppend
    have hnotlt : ¬ (r.Clone h).2.DiffIDs.len
        < ((r.Clone h).1.readArr (r.Clone h).2.DiffIDs.buf).length := by
      show ¬ r.DiffIDs.len < ((h.alloc (r.DiffIDs.elems h)).1.readArr
        (h.alloc (r.DiffIDs.elems h)).2).length
      rw [helems, elems_length h _ hlen]
      exact Nat.lt_irrefl _
    simp only [hnotlt, if_false]
    show r.diffIDList (((r.Clone h).1.alloc _).1) = r.diffIDList h
    unfold RootFS.diffIDList GoSlice.elems
    rw [readArr_alloc_lt _ _ _ (by
      show r.DiffIDs.buf < ((h.alloc (r.DiffIDs.elems h)).1).arrays.length
      show r.DiffIDs.buf < (h.arrays ++ [r.DiffIDs.elems h]).length
      rw [List.length_append]
      exact Nat.lt_of_lt_of_le hbuf (Nat.le_add_right _ _))]
    show List.take r.DiffIDs.len ((h.alloc (r.DiffIDs.elems h)).1.readArr r.DiffIDs.buf)
      = List.take r.DiffIDs.len (h.readArr r.DiffIDs.buf)
    rw [readArr_alloc_lt _ _ _ hbuf]

/-- Witness for C9 at a concrete heap and RootFS. -/
theorem rootfs_clone_spec_witness :
    rWit.WF hWit ∧
    ((rWit.Clone hWit).2.typ = rWit.typ ∧
      (rWit.Clone hWit).2.diffIDList (rWit.Clone hWit).1 = rWit.diffIDList hWit ∧
      rWit.diffIDList (((rWit.Clone hWit).2.Append (rWit.Clone hWit).1 "c").1)
        = rWit.diffIDList hWit) :=
  ⟨by decide, rootfs_clone_spec hWit rWit "c" (by decide)⟩

/-! ### Store lemmas -/

theorem lookup_append_none {β : Type} (l1 l2 : List (String × β)) (k : String)
    (h : l1.lookup k = none) : (l1 ++ l2).lookup k = l2.lookup k := by
  induction l1 with
  | nil => rfl
  | cons p t ih =>
    obtain ⟨a, b⟩ := p
    simp only [List.cons_append, List.lookup] at h ⊢
    by_cases hk : (k == a) = true
    · simp [hk] at h
    · have hkf : (k == a) = false := by simpa using hk
      simp only [hkf] at h ⊢
      exact ih h

theorem contains_put_self (s : ImageStore) (c : String) :
    ((s.put c).1).contains ((s.put c).2) = true := by
  show ((if s.contains (digestOf c) then s else ⟨s.images ++ [(digestOf c, c)]⟩).contains
    (digestOf c)) = true
  by_cases hc : s.contains (digestOf c)
  · rw [if_pos hc]; exact hc
  · rw [if_neg hc]
    show ((s.images ++ [(digestOf c, c)]).lookup (digestOf c)).isSome = true
    have hnone : s.images.lookup (digestOf c) = none := by
      cases hlk : s.images.lookup (digestOf c) with
      | none => rfl
      | some v => exact absurd (by simp [ImageStore.contains, hlk]) hc
    rw [lookup_append_none _ _ _ hnone]
    simp [List.lookup]

theorem refGet_set_self (l : List (Ref × ImageID)) (k : Ref) (i : ImageID) :
    refGet (refSet l k i) k = some i := by
  induction l with
  | nil => simp [refSet, refGet]
  | cons p t ih =>
    obtain ⟨r', i'⟩ := p
    by_cases hr : r' = k
    · simp [refSet, hr, refGet]
    · simp [refSet, hr, refGet, ih]

theorem refGet_set_ne (l : List (Ref × ImageID)) (k k' : Ref) (i : ImageID)
    (hk : k' ≠ k) : refGet (refSet l k i) k' = refGet l k' := by
  induction l with
  | nil =>
    show (if k = k' then some i else none) = none
    rw [if_neg (fun h => hk h.symm)]
  | cons p t ih =>
    obtain ⟨r', i'⟩ := p
    by_cases hr : r' = k
    · subst hr
      simp only [refSet, if_pos rfl, refGet]
      rw [if_neg (by exact fun h => hk h.symm), if_neg (by exact fun h => hk h.symm)]
    · simp only [refSet, if_neg hr, refGet]
      by_cases hr2 : r' = k'
      · rw [if_pos hr2, if_pos hr2]
      · rw [if_neg hr2, if_neg hr2]; exact ih

theorem refSet_same (l : List (Ref × ImageID)) (k : Ref) (i : ImageID)
    (h : refGet l k = some i) : refSet l k i = l := by
  induction l with
  | nil => simp [refGet] at h
  | cons p t ih =>
    obtain ⟨r', i'⟩ := p
    by_cases hr : r' = k
    · subst hr
      have h2 : i' = i := by simpa [refGet] using h
      subst h2
      simp [refSet]
    · have h2 : refGet t k = some i := by simpa [refGet, hr] using h
      simp [refSet, hr, ih h2]

/-! ### Schema1 validation lemmas (fixManifestLayers) -/

theorem fixLoop_cases : ∀ ls : List V1Layer,
    (chainOK ls = true ∧ ∃ out, fixLayersLoop ls = .ok out ∧
       out.map (·.id) = (ls.map (·.id)).destutter (· ≠ ·)) ∨
    (chainOK ls = false ∧ fixLayersLoop ls = .error .invalidParent)
  | [] => .inl ⟨rfl, [], rfl, by simp⟩
  | [l] => .inl ⟨rfl, [l], rfl, by simp⟩
  | l :: l' :: rest => by
    rcases fixLoop_cases (l' :: rest) with ⟨hc, out, hok, hmap⟩ | ⟨hc, he⟩
    · by_cases hid : l.id = l'.id
      · left
        refine ⟨by simp [chainOK, hid, hc], out, ?_, ?_⟩
        · show (match fixLayersLoop (l' :: rest) with
            | .error e => Except.error e
            | .ok kept =>
              if l.id = l'.id then Except.ok kept
              else if l.parent ≠ l'.id then Except.error PullError.invalidParent
              else Except.ok (l :: kept)) = Except.ok out
          rw [hok]
          dsimp only
          rw [if_pos hid]
        · rw [hmap]
          simp only [List.map_cons]
          rw [List.destutter_cons_cons, if_neg (by simpa using hid),
            List.destutter_cons', hid]
      · by_cases hpar : l.parent = l'.id
        · left
          refine ⟨by simp [chainOK, hid, hpar, hc], l :: out, ?_, ?_⟩
          · show (match fixLayersLoop (l' :: rest) with
              | .error e => Except.error e
              | .ok kept =>
                if l.id = l'.id then Except.ok kept
                else if l.parent ≠ l'.id then Except.error PullError.invalidParent
                else Except.ok (l :: kept)) = Except.ok (l :: out)
            rw [hok]
            dsimp only
            rw [if_neg hid, if_neg (by simpa using hpar)]
          · simp only [List.map_cons]
            rw [List.destutter_cons_cons, if_pos (by simpa using hid), hmap]
            simp only [List.map_cons]
            rw [List.destutter_cons']
        · right
          refine ⟨by simp [chainOK, hid, hpar], ?_⟩
          show (match fixLayersLoop (l' :: rest) with
            | .error e => Except.error e
            | .ok kept =>
              if l.id = l'.id then Except.ok kept
              else if l.parent ≠ l'.id then Except.error PullError.invalidParent
              else Except.ok (l :: kept)) = Except.error PullError.invalidParent
          rw [hok]
          dsimp only
          rw [if_neg hid, if_pos (by simpa using hpar)]
    · right
      refine ⟨by simp [chainOK, hc], ?_⟩
      show (match fixLayersLoop (l' :: rest) with
        | .error e => Except.error e
        | .ok kept =>
          if l.id = l'.id then Except.ok kept
          else if l.parent ≠ l'.id then Except.error PullError.invalidParent
          else Except.ok (l :: kept)) = Except.error PullError.invalidParent
      rw [he]

theorem destutter_head {α : Type} [DecidableEq α] : ∀ (l : List α) (a : α),
    ∃ t, List.destutter' (· ≠ ·) a l = a :: t
  | [], a => ⟨[], by rw [List.destutter'_nil]⟩
  | b :: l, a => by
    by_cases h : (fun x y => x ≠ y) a b
    · exact ⟨_, List.destutter'_cons_pos _ h⟩
    · obtain ⟨t, ht⟩ := destutter_head l a
      exact ⟨t, by rw [List.destutter'_cons_neg _ h, ht]⟩

theorem checkDup_none_iff : ∀ (xs : List String) (lastID : String)
    (seen : List String), (lastID ∈ seen ∨ ∀ y ∈ xs, y ≠ lastID) →
    (checkDuplicateIDs xs lastID seen = none ↔
      ((List.destutter' (· ≠ ·) lastID xs).tail.Nodup ∧
       ∀ y ∈ (List.destutter' (· ≠ ·) lastID xs).tail, y ∉ seen))
  | [], lastID, seen, _ => by
    rw [List.destutter'_nil]
    simp [checkDuplicateIDs]
  | x :: rest, lastID, seen, hpre => by
    by_cases hxl : x = lastID
    · subst hxl
      have hmem : x ∈ seen := by
        rcases hpre with h | h
        · exact h
        · exact absurd rfl (h x (List.mem_cons_self x rest))
      have hstep : checkDuplicateIDs (x :: rest) x seen
          = checkDuplicateIDs rest x (x :: seen) := by
        show (if x ≠ x ∧ x ∈ seen then some x else _) = _
        rw [if_neg (by simp)]
      rw [hstep, List.destutter'_cons_neg _ (by simp : ¬ (fun u v => u ≠ v) x x)]
      rw [checkDup_none_iff rest x (x :: seen) (.inl (List.mem_cons_self x seen))]
      constructor
      · rintro ⟨h1, h2⟩
        exact ⟨h1, fun y hy hys => h2 y hy (List.mem_cons_of_mem x hys)⟩
      · rintro ⟨h1, h2⟩
        refine ⟨h1, fun y hy hmem2 => ?_⟩
        rcases List.mem_cons.mp hmem2 with h | h
        · exact h2 y hy (h ▸ hmem)
        · exact h2 y hy h
    · have hlx : (fun u v => u ≠ v) lastID x := fun h => hxl h.symm
      rw [List.destutter'_cons_pos _ hlx, List.tail_cons]
      obtain ⟨t, ht⟩ := destutter_head rest x
      by_cases hxs : x ∈ seen
      · have hstep : checkDuplicateIDs (x :: rest) lastID seen = some x := by
          show (if x ≠ lastID ∧ x ∈ seen then some x else _) = some x
          rw [if_pos ⟨hxl, hxs⟩]
        rw [hstep, ht]
        constructor
        · intro h; exact absurd h (by simp)
        · rintro ⟨h1, h2⟩
          exact absurd hxs (h2 x (by simp))
      · have hstep : checkDuplicateIDs (x :: rest) lastID seen
            = checkDuplicateIDs rest x (x :: seen) := by
          show (if x ≠ lastID ∧ x ∈ seen then some x else _) = _
          rw [if_neg (by intro h; exact hxs h.2)]
        rw [hstep]
        rw [checkDup_none_iff rest x (x :: seen) (.inl (List.mem_cons_self x seen))]
        rw [ht, List.tail_cons]
        constructor
        · rintro ⟨h1, h2⟩
          refine ⟨List.nodup_cons.mpr ⟨?_, h1⟩, ?_⟩
          · intro hxt
            exact (h2 x hxt) (List.mem_cons_self x seen)
          · intro y hy
            rcases List.mem_cons.mp hy with h | h
            · subst h; exact hxs
            · intro hys; exact h2 y h (List.mem_cons_of_mem x hys)
        · rintro ⟨h1, h2⟩
          obtain ⟨hxnt, h1'⟩ := List.nodup_cons.mp h1
          refine ⟨h1', fun y hy hymem => ?_⟩
          rcases List.mem_cons.mp hymem with h | h
          · subst h; exact hxnt hy
          · exact h2 y (List.mem_cons_of_mem x hy) h

theorem checkDup_top (ids : List String) (hids : "" ∉ ids) :
    checkDuplicateIDs ids "" [] = none ↔ (ids.destutter (· ≠ ·)).Nodup := by
  rw [checkDup_none_iff ids "" []
    (.inr (fun y hy h => hids (h ▸ hy)))]
  have htail : (List.destutter' (· ≠ ·) "" ids).tail = ids.destutter (· ≠ ·) := by
    cases ids with
    | nil => rw [List.destutter'_nil]; rfl
    | cons a t =>
      have ha : (fun u v => u ≠ v) "" a := by
        intro h'
        exact hids (h' ▸ List.mem_cons_self a t)
      rw [List.destutter'_cons_pos _ ha, List.tail_cons, List.destutter_cons']
  rw [htail]
  simp

/-- Claim C3: for every schema1 history with a well-formed base layer and
valid (non-empty) IDs, a successful validation returns the history with
adjacent repeated IDs collapsed (its ID sequence is the destuttered input
ID sequence); a history in which the same ID appears non-adjacently (the
destuttered ID sequence still has a duplicate) is rejected with the
"appears multiple times" error; and a history whose parent pointers break
the chain to the base layer is rejected with the invalid-parent error. -/
theorem schema1_dedup_and_chain (goos : String) (layers : List V1Layer)
    (hbase : ∃ b, layers.getLast? = some b ∧ b.parent = "")
    (hids : "" ∉ layers.map (·.id)) :
    (∀ out, fixManifestLayers goos layers = .ok out →
       out.map (·.id) = (layers.map (·.id)).destutter (· ≠ ·)) ∧
    (¬ ((layers.map (·.id)).destutter (· ≠ ·)).Nodup →
       ∃ i, fixManifestLayers goos layers = .error (.duplicateID i)) ∧
    (((layers.map (·.id)).destutter (· ≠ ·)).Nodup → chainOK layers = false →
       fixManifestLayers goos layers = .error .invalidParent) := by
  obtain ⟨b, hb, hbp⟩ := hbase
  have hfix : fixManifestLayers goos layers =
      (match checkDuplicateIDs (layers.map (·.id)) "" [] with
       | some i => .error (.duplicateID i)
       | none => fixLayersLoop layers) := by
    unfold fixManifestLayers
    rw [hb]
    dsimp only
    rw [if_neg (by simp [hbp])]
  have hdup := checkDup_top (layers.map (·.id)) hids
  refine ⟨?_, ?_, ?_⟩
  · intro out hout
    rw [hfix] at hout
    cases hfd : checkDuplicateIDs (layers.map (·.id)) "" [] with
    | some i => rw [hfd] at hout; exact absurd hout (by simp)
    | none =>
      rw [hfd] at hout
      dsimp only at hout
      rcases fixLoop_cases layers with ⟨_, out', hok, hmap⟩ | ⟨_, he⟩
      · rw [hok] at hout
        injection hout with h1
        rw [← h1]
        exact hmap
      · rw [he] at hout; exact absurd hout (by simp)
  · intro hnd
    rw [hfix]
    cases hfd : checkDuplicateIDs (layers.map (·.id)) "" [] with
    | some i => exact ⟨i, rfl⟩
    | none => exact absurd (hdup.mp hfd) hnd
  · intro hnd hch
    rw [hfix, (by rw [hdup]; exact hnd : checkDuplicateIDs (layers.map (·.id)) "" [] = none)]
    rcases fixLoop_cases layers with ⟨hc, _, _, _⟩ | ⟨_, he⟩
    · rw [hch] at hc; exact absurd hc (by simp)
    · exact he

/-- Witness for C3: a history with the same ID appearing non-adjacently is
rejected with the "appears multiple times" error. -/
theorem schema1_dedup_and_chain_witness :
    (∃ b, dupLayers.getLast? = some b ∧ b.parent = "") ∧
    "" ∉ dupLayers.map (·.id) ∧
    (∃ i, fixManifestLayers "linux" dupLayers = .error (.duplicateID i)) :=
  ⟨⟨⟨"a", "", false⟩, by decide⟩, by decide,
   (schema1_dedup_and_chain "linux" dupLayers ⟨⟨"a", "", false⟩, by decide⟩
      (by decide)).2.1 (by decide)⟩

/-! ### C4: verification-failure policy of layerDescriptor.Download -/

/-- Claim C4: on a download attempt whose accumulated stream fails digest
verification, a non-zero resume offset forces a full restart — the outcome
is a plain retryable error, the temp file is truncated and the verifier
dropped, and driving a next attempt from that state is the same as a fresh
attempt with no resume state (offset zero) — while a verification failure
at offset zero is the DoNotRetry (fatal, non-retryable) outcome. -/
theorem layer_verify_failure_policy (expected : Digest) (fetch : Nat → List Nat)
    (s : LayerState)
    (hfail : bytesDigest (s.verifier.getD [] ++ fetch (s.tmpFile.getD []).length)
      ≠ expected) :
    ((s.tmpFile.getD []).length ≠ 0 →
       layerDownload expected fetch s = .retryable ⟨some [], none⟩ ∧
       layerDownload expected fetch ⟨some [], none⟩
         = layerDownload expected fetch ⟨none, none⟩) ∧
    ((s.tmpFile.getD []).length = 0 →
       ∃ ns, layerDownload expected fetch s = .doNotRetry ns) := by
  constructor
  · intro hoff
    refine ⟨?_, rfl⟩
    show (if bytesDigest (s.verifier.getD [] ++ fetch (s.tmpFile.getD []).length)
        = expected then _ else _) = _
    rw [if_neg hfail, if_neg hoff]
    rfl
  · intro hoff
    refine ⟨⟨some (s.tmpFile.getD [] ++ fetch (s.tmpFile.getD []).length),
      some (s.verifier.getD [] ++ fetch (s.tmpFile.getD []).length)⟩, ?_⟩
    show (if bytesDigest (s.verifier.getD [] ++ fetch (s.tmpFile.getD []).length)
        = expected then _ else _) = _
    rw [if_neg hfail, if_pos hoff]

/-- Witness for C4: a resumed download whose ranged read returns corrupt
bytes fails verification and restarts from a truncated file, which behaves
exactly like a fresh download. -/
theorem layer_verify_failure_policy_witness :
    bytesDigest ([1] ++ fetchWit 1) ≠ bytesDigest goodBytes ∧
    (layerDownload (bytesDigest goodBytes) fetchWit ⟨some [1], some [1]⟩
        = .retryable ⟨some [], none⟩ ∧
     layerDownload (bytesDigest goodBytes) fetchWit ⟨some [], none⟩
        = layerDownload (bytesDigest goodBytes) fetchWit ⟨none, none⟩) :=
  ⟨by decide,
   (layer_verify_failure_policy (bytesDigest goodBytes) fetchWit
      ⟨some [1], some [1]⟩ (by decide)).1 (by decide)⟩

/-! ### Propagation lemmas for the schema pullers -/

theorem pullSchema1_error (goos : String) (st : LocalState) (history : List V1Layer)
    (st' : LocalState) (e : PullError)
    (h : pullSchema1 goos st history = (st', .error e)) : st' = st := by
  unfold pullSchema1 at h
  repeat' split at h
  all_goals injection h with h1 h2
  all_goals first | exact h1.symm | exact Except.noConfusion h2

theorem pullSchema1_ok (goos : String) (st : LocalState) (history : List V1Layer)
    (st' : LocalState) (id : ImageID) (n : Nat)
    (h : pullSchema1 goos st history = (st', .ok (id, n))) :
    st'.imageStore.contains id = true ∧ st'.refStore = st.refStore := by
  unfold pullSchema1 at h
  split at h
  · injection h with h1 h2; exact Except.noConfusion h2
  · split at h
    · injection h with h1 h2; exact Except.noConfusion h2
    · injection h with h1 h2
      injection h2 with h3
      injection h3 with h4 h5
      constructor
      · rw [← h1, ← h4]
        exact contains_put_self st.imageStore _
      · rw [← h1]

theorem pullSchema2Config_ok (reg : Registry) (d : Digest) (cfg : ImgConfig)
    (h : pullSchema2Config reg d = .ok cfg) :
    digestOf cfg.json = d ∧ reg.blobs.lookup d = some cfg := by
  unfold pullSchema2Config at h
  cases hb : reg.blobs.lookup d with
  | none => rw [hb] at h; exact Except.noConfusion h
  | some cfg' =>
    rw [hb] at h
    dsimp only at h
    by_cases hd : digestOf cfg'.json = d
    · rw [if_neg (by simp [hd])] at h
      injection h with h1
      rw [← h1]
      exact ⟨hd, rfl⟩
    · rw [if_pos hd] at h
      exact Except.noConfusion h

theorem pullSchema2Layers_error (reg : Registry) (st : LocalState) (target : Digest)
    (layers : List Digest) (st' : LocalState) (e : PullError)
    (h : pullSchema2Layers reg st target layers = (st', .error e)) : st' = st := by
  unfold pullSchema2Layers at h
  repeat' split at h
  all_goals injection h with h1 h2
  all_goals first | exact h1.symm | exact Except.noConfusion h2

theorem pullSchema2Layers_ok (reg : Registry) (st : LocalState) (target : Digest)
    (layers : List Digest) (st' : LocalState) (id : ImageID) (n : Nat)
    (h : pullSchema2Layers reg st target layers = (st', .ok (id, n))) :
    id = target ∧ st'.imageStore.contains target = true ∧
    st'.refStore = st.refStore := by
  unfold pullSchema2Layers at h
  by_cases hc : st.imageStore.contains target
  · rw [if_pos hc] at h
    injection h with h1 h2
    injection h2 with h3
    injection h3 with h4 h5
    exact ⟨h4.symm, by rw [← h1]; exact hc, by rw [← h1]⟩
  · rw [if_neg hc] at h
    cases hcfg : pullSchema2Config reg target with
    | error e0 => rw [hcfg] at h; simp at h
    | ok cfg =>
      rw [hcfg] at h
      dsimp only at h
      obtain ⟨htgt, _⟩ := pullSchema2Config_ok reg target cfg hcfg
      cases hdl : downloadLayers reg layers with
      | error e0 => rw [hdl] at h; simp at h
      | ok dl =>
        rw [hdl] at h
        dsimp only at h
        by_cases hlen : dl.length = cfg.diffIDs.length
        · rw [if_neg (by simp [hlen])] at h
          by_cases heq : dl = cfg.diffIDs
          · rw [if_neg (by simp [heq])] at h
            injection h with h1 h2
            injection h2 with h3
            injection h3 with h4 h5
            refine ⟨h4.symm.trans htgt, ?_, by rw [← h1]⟩
            rw [← h1]
            show ((st.imageStore.put cfg.json).1).contains target = true
            have hput := contains_put_self st.imageStore cfg.json
            rw [show (st.imageStore.put cfg.json).2 = digestOf cfg.json from rfl,
              htgt] at hput
            exact hput
          · rw [if_pos heq] at h; simp at h
        · rw [if_pos hlen] at h; simp at h

/-! ### Reference-store operation lemmas -/

theorem addDigest_ok (s : RefStore) (nm : String) (d : Digest) (i : ImageID)
    (hf : (Ref.canonical nm d) ∉ s.failing) :
    s.addDigest nm d i = .ok ⟨refSet s.entries (.canonical nm d) i, s.failing⟩ := by
  unfold RefStore.addDigest
  rw [if_neg hf]

theorem addTag_ok (s : RefStore) (nm tg : String) (i : ImageID)
    (hf : (Ref.tagged nm tg) ∉ s.failing) :
    s.addTag nm tg i = .ok ⟨refSet s.entries (.tagged nm tg) i, s.failing⟩ := by
  unfold RefStore.addTag
  rw [if_neg hf]

theorem addDigestReference_ok_props (s rs : RefStore) (nm : String) (d : Digest)
    (i : ImageID) (h : addDigestReference s nm d i = .ok rs) :
    rs.failing = s.failing ∧
    (∀ r : Ref, r ≠ .canonical nm d → rs.get r = s.get r) ∧
    (rs.get (.canonical nm d) = some i ∨
      (∃ j, s.get (.canonical nm d) = some j ∧ rs = s)) ∧
    (rs.get (.canonical nm d)).isSome = true := by
  unfold addDigestReference at h
  cases hg : s.get (.canonical nm d) with
  | some old =>
    rw [hg] at h
    injection h with h1
    subst h1
    exact ⟨rfl, fun _ _ => rfl, .inr ⟨old, rfl, rfl⟩, by rw [hg]; rfl⟩
  | none =>
    rw [hg] at h
    unfold RefStore.addDigest at h
    by_cases hf : (Ref.canonical nm d) ∈ s.failing
    · rw [if_pos hf] at h; exact Except.noConfusion h
    · rw [if_neg hf] at h
      injection h with h1
      subst h1
      refine ⟨rfl, ?_, .inl (refGet_set_self _ _ _), ?_⟩
      · intro r hr
        exact refGet_set_ne _ _ _ _ hr
      · show (refGet (refSet s.entries (.canonical nm d) i) (.canonical nm d)).isSome
          = true
        rw [refGet_set_self]
        rfl

theorem addDigestReference_ok_of_not_failing (s : RefStore) (nm : String)
    (d : Digest) (i : ImageID) (hf : (Ref.canonical nm d) ∉ s.failing) :
    ∃ rs, addDigestReference s nm d i = .ok rs := by
  unfold addDigestReference
  cases hg : s.get (.canonical nm d) with
  | some old => exact ⟨s, rfl⟩
  | none => exact ⟨_, addDigest_ok s nm d i hf⟩

/-! ### pullManifest dispatch equations -/

theorem pullManifest_schema1_eq (goos : String) (fuel : Nat) (reg : Registry)
    (platform : Platform) (st : LocalState) (hist : List V1Layer) :
    pullManifest goos fuel reg platform st (.schema1 hist) = pullSchema1 goos st hist := by
  unfold pullManifest
  rfl

theorem pullManifest_schema2_eq (goos : String) (fuel : Nat) (reg : Registry)
    (platform : Platform) (st : LocalState) (cd : Digest) (lds : List Digest) :
    pullManifest goos fuel reg platform st (.schema2 cd lds)
      = pullSchema2Layers reg st cd lds := by
  unfold pullManifest
  rfl

theorem pullManifest_mlist_eq (goos : String) (fuel : Nat) (reg : Registry)
    (platform : Platform) (st : LocalState) (entries : List (Platform × Digest)) :
    pullManifest goos fuel reg platform st (.mlist entries)
      = pullManifestList goos fuel reg platform st entries := by
  unfold pullManifest
  rfl

/-! ### The manifest-list loop: foldl form vs explicit recursion -/

theorem mlistStep_pass (goos : String) (reg : Registry)
    (nested : LocalState → List (Platform × Digest) →
      LocalState × Except PullError (ImageID × Nat))
    (st : LocalState) (r : Except PullError (ImageID × Nat))
    (e : Platform × Digest) :
    mlistStep goos reg nested (st, some r) e = (st, some r) := rfl

theorem mlistStep_start (goos : String) (reg : Registry)
    (nested : LocalState → List (Platform × Digest) →
      LocalState × Except PullError (ImageID × Nat))
    (st : LocalState) (e : Platform × Digest) :
    mlistStep goos reg nested (st, none) e
      = (match reg.manifests.lookup e.2 with
        | none => (st, some (.error .manifestNotFound))
        | some (.schema1 hist) =>
          ((pullSchema1 goos st hist).1, some (pullSchema1 goos st hist).2)
        | some (.schema2 cd lds) =>
          ((pullSchema2Layers reg st cd lds).1,
            some (pullSchema2Layers reg st cd lds).2)
        | some (.mlist entries') =>
          match nested st entries' with
          | (st', .error e') =>
            if e' = .noMatchesErr then (st', some (.error .noMatchesErr))
            else (st', none)
          | (st', .ok v) => (st', some (.ok v))) := rfl

theorem foldl_mlistStep_pass (goos : String) (reg : Registry)
    (nested : LocalState → List (Platform × Digest) →
      LocalState × Except PullError (ImageID × Nat))
    (st : LocalState) (r : Except PullError (ImageID × Nat)) :
    ∀ l : List (Platform × Digest),
      l.foldl (mlistStep goos reg nested) (st, some r) = (st, some r)
  | [] => rfl
  | e :: rest => by
    rw [List.foldl_cons, mlistStep_pass,
      foldl_mlistStep_pass goos reg nested st r rest]

theorem pullMatches_nil (goos : String) (reg : Registry) (platform : Platform)
    (fuel : Nat) (st : LocalState) :
    pullMatches goos reg platform fuel st [] = (st, none) := rfl

theorem pullMatches_cons (goos : String) (reg : Registry) (platform : Platform)
    (fuel : Nat) (st : LocalState) (e : Platform × Digest)
    (rest : List (Platform × Digest)) :
    pullMatches goos reg platform fuel st (e :: rest)
      = (match reg.manifests.lookup e.2 with
        | none => (st, some (.error .manifestNotFound))
        | some (.schema1 hist) =>
          ((pullSchema1 goos st hist).1, some (pullSchema1 goos st hist).2)
        | some (.schema2 cd lds) =>
          ((pullSchema2Layers reg st cd lds).1,
            some (pullSchema2Layers reg st cd lds).2)
        | some (.mlist entries') =>
          match pullManifestList goos fuel reg platform st entries' with
          | (st', .error e') =>
            if e' = .noMatchesErr then (st', some (.error .noMatchesErr))
            else pullMatches goos reg platform fuel st' rest
          | (st', .ok v) => (st', some (.ok v))) := rfl

theorem foldl_mlistStep_eq_pullMatches (goos : String) (reg : Registry)
    (platform : Platform) (fuel : Nat) :
    ∀ (l : List (Platform × Digest)) (st : LocalState),
      l.foldl (mlistStep goos reg
          (fun st' es => pullManifestList goos fuel reg platform st' es))
        (st, none)
        = pullMatches goos reg platform fuel st l
  | [], _ => rfl
  | e :: rest, st => by
    rw [List.foldl_cons, mlistStep_start, pullMatches_cons]
    cases hm : reg.manifests.lookup e.2 with
    | none =>
      dsimp only
      exact foldl_mlistStep_pass goos reg _ _ _ rest
    | some m =>
      cases m with
      | schema1 hist =>
        dsimp only
        exact foldl_mlistStep_pass goos reg _ _ _ rest
      | schema2 cd lds =>
        dsimp only
        exact foldl_mlistStep_pass goos reg _ _ _ rest
      | mlist es =>
        dsimp only
        rcases hp : pullManifestList goos fuel reg platform st es with ⟨st0, r0⟩
        cases r0 with
        | error e' =>
          dsimp only
          by_cases he' : e' = .noMatchesErr
          · subst he'
            rw [if_pos rfl]
            exact foldl_mlistStep_pass goos reg _ _ _ rest
          · simp only [if_neg he']
            exact foldl_mlistStep_eq_pullMatches goos reg platform fuel rest st0
        | ok v =>
          dsimp only
          exact foldl_mlistStep_pass goos reg _ _ _ rest

theorem pullManifestList_succ (goos : String) (fuel : Nat) (reg : Registry)
    (platform : Platform) (st : LocalState) (entries : List (Platform × Digest)) :
    pullManifestList goos (fuel + 1) reg platform st entries
      = (match pullMatches goos reg platform fuel st
            (filterManifests entries platform) with
        | (st', none) => (st', .error .noMatchesErr)
        | (st', some r) => (st', r)) := by
  show (match (filterManifests entries platform).foldl
      (mlistStep goos reg
        (fun st' es => pullManifestList goos fuel reg platform st' es))
      (st, none) with
    | (st', none) => (st', Except.error PullError.noMatchesErr)
    | (st', some r) => (st', r)) = _
  rw [foldl_mlistStep_eq_pullMatches]

/-! ### State preservation through the manifest-list loop -/

theorem pullMatches_state (goos : String) (reg : Registry) (platform : Platform)
    (fuel : Nat)
    (ih : ∀ st es st' e,
      pullManifestList goos fuel reg platform st es = (st', .error e) → st' = st) :
    ∀ (l : List (Platform × Digest)) (st st' : LocalState)
      (o : Option (Except PullError (ImageID × Nat))),
      pullMatches goos reg platform fuel st l = (st', o) →
      (o = none ∨ ∃ e, o = some (.error e)) → st' = st
  | [], st, st', o, h, _ => by
    injection h with h1 h2
    exact h1.symm
  | e :: rest, st, st', o, h, ho => by
    rw [pullMatches_cons] at h
    cases hm : reg.manifests.lookup e.2 with
    | none =>
      rw [hm] at h
      injection h with h1 h2
      exact h1.symm
    | some m =>
      rw [hm] at h
      match m, h with
      | .schema1 hist, h =>
        dsimp only at h
        injection h with h1 h2
        rcases ho with hnone | ⟨e0, he0⟩
        · rw [← h2] at hnone; exact Option.noConfusion hnone
        · rw [← h2] at he0
          injection he0 with he1
          exact pullSchema1_error goos st hist st' e0 (by rw [← h1, ← he1])
      | .schema2 cd lds, h =>
        dsimp only at h
        injection h with h1 h2
        rcases ho with hnone | ⟨e0, he0⟩
        · rw [← h2] at hnone; exact Option.noConfusion hnone
        · rw [← h2] at he0
          injection he0 with he1
          exact pullSchema2Layers_error reg st cd lds st' e0 (by rw [← h1, ← he1])
      | .mlist es, h =>
        dsimp only at h
        rcases hp : pullManifestList goos fuel reg platform st es with ⟨st0, r0⟩
        rw [hp] at h
        match r0, h with
        | .error e', h =>
          dsimp only at h
          by_cases he' : e' = .noMatchesErr
          · subst he'
            rw [if_pos rfl] at h
            injection h with h1 h2
            exact h1.symm.trans (ih st es st0 _ hp)
          · rw [if_neg he'] at h
            exact (pullMatches_state goos reg platform fuel ih rest st0 st' o h
              ho).trans (ih st es st0 e' hp)
        | .ok v, h =>
          dsimp only at h
          injection h with h1 h2
          rcases ho with hnone | ⟨e0, he0⟩
          · rw [← h2] at hnone; exact Option.noConfusion hnone
          · rw [← h2] at he0
            injection he0 with he1
            exact Except.noConfusion he1

theorem pullMatches_ok_props (goos : String) (reg : Registry)
    (platform : Platform) (fuel : Nat)
    (ihok : ∀ st es st' id n,
      pullManifestList goos fuel reg platform st es = (st', .ok (id, n)) →
      st'.imageStore.contains id = true ∧ st'.refStore = st.refStore)
    (iherr : ∀ st es st' e,
      pullManifestList goos fuel reg platform st es = (st', .error e) → st' = st) :
    ∀ (l : List (Platform × Digest)) (st st' : LocalState) (id : ImageID)
      (n : Nat),
      pullMatches goos reg platform fuel st l = (st', some (.ok (id, n))) →
      st'.imageStore.contains id = true ∧ st'.refStore = st.refStore
  | [], st, st', id, n, h => by
    injection h with h1 h2
    exact Option.noConfusion h2
  | e :: rest, st, st', id, n, h => by
    rw [pullMatches_cons] at h
    cases hm : reg.manifests.lookup e.2 with
    | none =>
      rw [hm] at h
      injection h with h1 h2
      injection h2 with h3
      exact Except.noConfusion h3
    | some m =>
      rw [hm] at h
      match m, h with
      | .schema1 hist, h =>
        dsimp only at h
        injection h with h1 h2
        injection h2 with h3
        exact pullSchema1_ok goos st hist st' id n (by rw [← h1, ← h3])
      | .schema2 cd lds, h =>
        dsimp only at h
        injection h with h1 h2
        injection h2 with h3
        obtain ⟨hid, hc, hr⟩ := pullSchema2Layers_ok reg st cd lds st' id n
          (by rw [← h1, ← h3])
        exact ⟨by rw [hid]; exact hc, hr⟩
      | .mlist es, h =>
        dsimp only at h
        rcases hp : pullManifestList goos fuel reg platform st es with ⟨st0, r0⟩
        rw [hp] at h
        match r0, h with
        | .error e', h =>
          dsimp only at h
          by_cases he' : e' = .noMatchesErr
          · subst he'
            rw [if_pos rfl] at h
            injection h with h1 h2
            injection h2 with h3
            exact Except.noConfusion h3
          · rw [if_neg he'] at h
            have hst0 : st0 = st := iherr st es st0 e' hp
            obtain ⟨hc, hr⟩ := pullMatches_ok_props goos reg platform fuel ihok
              iherr rest st0 st' id n h
            exact ⟨hc, by rw [hr, hst0]⟩
        | .ok v, h =>
          dsimp only at h
          injection h with h1 h2
          injection h2 with h3
          injection h3 with hv
          obtain ⟨hc, hr⟩ := ihok st es st0 id n (by rw [hp, hv])
          exact ⟨by rw [← h1]; exact hc, by rw [← h1]; exact hr⟩

theorem pullManifestList_error (goos : String) :
    ∀ (fuel : Nat) (reg : Registry) (platform : Platform) (st : LocalState)
      (es : List (Platform × Digest)) (st' : LocalState) (e : PullError),
      pullManifestList goos fuel reg platform st es = (st', .error e) → st' = st
  | 0, reg, platform, st, es, st', e, h => by
    injection h with h1 h2
    exact h1.symm
  | fuel + 1, reg, platform, st, es, st', e, h => by
    rw [pullManifestList_succ] at h
    rcases hpm : pullMatches goos reg platform fuel st
        (filterManifests es platform) with ⟨st0, o⟩
    rw [hpm] at h
    match o, h with
    | none, h =>
      injection h with h1 h2
      exact h1.symm.trans (pullMatches_state goos reg platform fuel
        (pullManifestList_error goos fuel reg platform) _ st st0 none hpm
        (.inl rfl))
    | some r, h =>
      injection h with h1 h2
      exact h1.symm.trans (pullMatches_state goos reg platform fuel
        (pullManifestList_error goos fuel reg platform) _ st st0 (some r) hpm
        (.inr ⟨e, by rw [h2]⟩))

theorem pullManifestList_ok (goos : String) :
    ∀ (fuel : Nat) (reg : Registry) (platform : Platform) (st : LocalState)
      (es : List (Platform × Digest)) (st' : LocalState) (id : ImageID)
      (n : Nat),
      pullManifestList goos fuel reg platform st es = (st', .ok (id, n)) →
      st'.imageStore.contains id = true ∧ st'.refStore = st.refStore
  | 0, reg, platform, st, es, st', id, n, h => by
    injection h with h1 h2
    exact Except.noConfusion h2
  | fuel + 1, reg, platform, st, es, st', id, n, h => by
    rw [pullManifestList_succ] at h
    rcases hpm : pullMatches goos reg platform fuel st
        (filterManifests es platform) with ⟨st0, o⟩
    rw [hpm] at h
    match o, h with
    | none, h =>
      injection h with h1 h2
      exact Except.noConfusion h2
    | some r, h =>
      injection h with h1 h2
      rw [h1, h2] at hpm
      exact pullMatches_ok_props goos reg platform fuel
        (pullManifestList_ok goos fuel reg platform)
        (pullManifestList_error goos fuel reg platform) _ st st' id n hpm

theorem pullManifest_error (goos : String) (fuel : Nat) (reg : Registry)
    (platform : Platform) (st : LocalState) (m : Manifest) (st' : LocalState)
    (e : PullError)
    (h : pullManifest goos fuel reg platform st m = (st', .error e)) :
    st' = st := by
  cases m with
  | schema1 hist =>
    rw [pullManifest_schema1_eq] at h
    exact pullSchema1_error goos st hist st' e h
  | schema2 cd lds =>
    rw [pullManifest_schema2_eq] at h
    exact pullSchema2Layers_error reg st cd lds st' e h
  | mlist es =>
    rw [pullManifest_mlist_eq] at h
    exact pullManifestList_error goos fuel reg platform st es st' e h

theorem pullManifest_ok (goos : String) (fuel : Nat) (reg : Registry)
    (platform : Platform) (st : LocalState) (m : Manifest) (st' : LocalState)
    (id : ImageID) (n : Nat)
    (h : pullManifest goos fuel reg platform st m = (st', .ok (id, n))) :
    st'.imageStore.contains id = true ∧ st'.refStore = st.refStore := by
  cases m with
  | schema1 hist =>
    rw [pullManifest_schema1_eq] at h
    exact pullSchema1_ok goos st hist st' id n h
  | schema2 cd lds =>
    rw [pullManifest_schema2_eq] at h
    obtain ⟨hid, hc, hr⟩ := pullSchema2Layers_ok reg st cd lds st' id n h
    exact ⟨by rw [hid]; exact hc, hr⟩
  | mlist es =>
    rw [pullManifest_mlist_eq] at h
    exact pullManifestList_ok goos fuel reg platform st es st' id n h

/-! ### pullTag: unfolding equations and reconciliation lemmas -/

theorem addDigest_ok_props (s : RefStore) (nm : String) (d : Digest)
    (i : ImageID) (rs : RefStore) (h : s.addDigest nm d i = .ok rs) :
    rs = ⟨refSet s.entries (.canonical nm d) i, s.failing⟩ := by
  unfold RefStore.addDigest at h
  split at h
  · exact Except.noConfusion h
  · injection h with h1
    exact h1.symm

theorem addTag_ok_props (s : RefStore) (nm tg : String) (i : ImageID)
    (rs : RefStore) (h : s.addTag nm tg i = .ok rs) :
    rs = ⟨refSet s.entries (.tagged nm tg) i, s.failing⟩ := by
  unfold RefStore.addTag at h
  split at h
  · exact Except.noConfusion h
  · injection h with h1
    exact h1.symm

theorem pullTag_resolve_err (goos : String) (fuel : Nat) (reg : Registry)
    (platform : Platform) (st : LocalState) (ref : Ref) (e : PullError)
    (hres : resolveTagOrDigest reg ref = .error e) :
    pullTag goos fuel reg platform st ref = (st, .error e) := by
  unfold pullTag
  rw [hres]

theorem pullTag_lookup_none (goos : String) (fuel : Nat) (reg : Registry)
    (platform : Platform) (st : LocalState) (ref : Ref) (dgst : Digest)
    (hres : resolveTagOrDigest reg ref = .ok dgst)
    (hm : reg.manifests.lookup dgst = none) :
    pullTag goos fuel reg platform st ref = (st, .error .manifestNotFound) := by
  unfold pullTag
  rw [hres]
  dsimp only
  rw [hm]

theorem pullTag_manifest_err (goos : String) (fuel : Nat) (reg : Registry)
    (platform : Platform) (st : LocalState) (ref : Ref) (dgst : Digest)
    (m : Manifest) (st' : LocalState) (e : PullError)
    (hres : resolveTagOrDigest reg ref = .ok dgst)
    (hm : reg.manifests.lookup dgst = some m)
    (hpm : pullManifest goos fuel reg platform st m = (st', .error e)) :
    pullTag goos fuel reg platform st ref = (st', .error e) := by
  unfold pullTag
  rw [hres]
  dsimp only
  rw [hm]
  dsimp only
  rw [hpm]

theorem pullTag_resolved (goos : String) (fuel : Nat) (reg : Registry)
    (platform : Platform) (st : LocalState) (ref : Ref) (dgst : Digest)
    (m : Manifest) (st' : LocalState) (id : ImageID) (n : Nat)
    (hres : resolveTagOrDigest reg ref = .ok dgst)
    (hm : reg.manifests.lookup dgst = some m)
    (hpm : pullManifest goos fuel reg platform st m = (st', .ok (id, n))) :
    pullTag goos fuel reg platform st ref
      = (match st'.refStore.get ref with
        | some oldTagID =>
          if oldTagID = id then
            match addDigestReference st'.refStore ref.name dgst id with
            | .ok rs => ({ st' with refStore := rs }, .ok false)
            | .error e => (st', .error e)
          else pullTagAdd st' ref dgst id
        | none => pullTagAdd st' ref dgst id) := by
  unfold pullTag
  rw [hres]
  dsimp only
  rw [hm]
  dsimp only
  rw [hpm]

theorem pullTagAdd_no_error (st' : LocalState) (ref : Ref) (dgst : Digest)
    (id : ImageID) (hfail : st'.refStore.failing = []) :
    ∃ st2 b, pullTagAdd st' ref dgst id = (st2, .ok b) := by
  cases ref with
  | canonical nm d =>
    have hmem : (Ref.canonical nm d) ∉ st'.refStore.failing := by
      rw [hfail]; exact List.not_mem_nil _
    exact ⟨_, _, by
      unfold pullTagAdd
      dsimp only
      rw [addDigest_ok _ _ _ _ hmem]⟩
  | tagged nm tg =>
    obtain ⟨rs, hrs⟩ := addDigestReference_ok_of_not_failing st'.refStore nm dgst
      id (by rw [hfail]; exact List.not_mem_nil _)
    have hflrs : rs.failing = st'.refStore.failing :=
      (addDigestReference_ok_props _ rs _ _ _ hrs).1
    have hmem2 : (Ref.tagged nm tg) ∉ rs.failing := by
      rw [hflrs, hfail]; exact List.not_mem_nil _
    refine ⟨{ st' with
      refStore := ⟨refSet rs.entries (.tagged nm tg) id, rs.failing⟩ }, true, ?_⟩
    show ((match addDigestReference st'.refStore nm dgst id with
      | Except.error e => (st', Except.error e)
      | Except.ok rs =>
        match rs.addTag nm tg id with
        | Except.error e => ({ st' with refStore := rs }, Except.error e)
        | Except.ok rs2 => ({ st' with refStore := rs2 }, Except.ok true)) :
      LocalState × Except PullError Bool) = _
    rw [hrs]
    dsimp only
    rw [addTag_ok rs nm tg id hmem2]
  | nameOnly nm =>
    obtain ⟨rs, hrs⟩ := addDigestReference_ok_of_not_failing st'.refStore nm dgst
      id (by rw [hfail]; exact List.not_mem_nil _)
    have hflrs : rs.failing = st'.refStore.failing :=
      (addDigestReference_ok_props _ rs _ _ _ hrs).1
    have hmem2 : (Ref.tagged nm "") ∉ rs.failing := by
      rw [hflrs, hfail]; exact List.not_mem_nil _
    refine ⟨{ st' with
      refStore := ⟨refSet rs.entries (.tagged nm "") id, rs.failing⟩ }, true, ?_⟩
    show ((match addDigestReference st'.refStore nm dgst id with
      | Except.error e => (st', Except.error e)
      | Except.ok rs =>
        match rs.addTag nm "" id with
        | Except.error e => ({ st' with refStore := rs }, Except.error e)
        | Except.ok rs2 => ({ st' with refStore := rs2 }, Except.ok true)) :
      LocalState × Except PullError Bool) = _
    rw [hrs]
    dsimp only
    rw [addTag_ok rs nm "" id hmem2]

theorem pullTagAdd_ok_props (st' : LocalState) (ref : Ref) (dgst : Digest)
    (id : ImageID) (st1 : LocalState) (b : Bool)
    (hnn : ∀ nm, ref ≠ .nameOnly nm)
    (hcanon : ∀ nm d, ref = .canonical nm d → d = dgst)
    (h : pullTagAdd st' ref dgst id = (st1, .ok b)) :
    st1.imageStore = st'.imageStore ∧
    st1.refStore.get ref = some id ∧
    (st1.refStore.get (.canonical ref.name dgst)).isSome = true := by
  cases ref with
  | canonical nm d =>
    have hd : d = dgst := hcanon nm d rfl
    subst hd
    unfold pullTagAdd at h
    dsimp only at h
    cases hda : st'.refStore.addDigest nm d id with
    | error e =>
      rw [hda] at h
      dsimp only at h
      injection h with h1 h2
      exact Except.noConfusion h2
    | ok rs =>
      rw [hda] at h
      dsimp only at h
      injection h with h1 h2
      have hrs := addDigest_ok_props st'.refStore nm d id rs hda
      subst hrs
      refine ⟨by rw [← h1], ?_, ?_⟩
      · rw [← h1]
        show refGet (refSet st'.refStore.entries (.canonical nm d) id)
          (.canonical nm d) = some id
        exact refGet_set_self _ _ _
      · rw [← h1]
        show (refGet (refSet st'.refStore.entries (.canonical nm d) id)
          (Ref.canonical (Ref.canonical nm d).name d)).isSome = true
        rw [show (Ref.canonical nm d).name = nm from rfl, refGet_set_self]
        rfl
  | tagged nm tg =>
    have hstep : pullTagAdd st' (.tagged nm tg) dgst id
        = (match addDigestReference st'.refStore nm dgst id with
          | .error e => (st', .error e)
          | .ok rs =>
            match rs.addTag nm tg id with
            | .error e => ({ st' with refStore := rs }, .error e)
            | .ok rs2 => ({ st' with refStore := rs2 }, .ok true)) := rfl
    rw [hstep] at h
    cases hadr : addDigestReference st'.refStore nm dgst id with
    | error e =>
      rw [hadr] at h
      injection h with h1 h2
      exact Except.noConfusion h2
    | ok rs =>
      rw [hadr] at h
      dsimp only at h
      cases hat : rs.addTag nm tg id with
      | error e =>
        rw [hat] at h
        injection h with h1 h2
        exact Except.noConfusion h2
      | ok rs2 =>
        rw [hat] at h
        injection h with h1 h2
        have hrs2 := addTag_ok_props rs nm tg id rs2 hat
        subst hrs2
        obtain ⟨hfl, hne, hcan, hsome⟩ :=
          addDigestReference_ok_props st'.refStore rs nm dgst id hadr
        refine ⟨by rw [← h1], ?_, ?_⟩
        · rw [← h1]
          show refGet (refSet rs.entries (.tagged nm tg) id) (.tagged nm tg)
            = some id
          exact refGet_set_self _ _ _
        · rw [← h1]
          show (refGet (refSet rs.entries (.tagged nm tg) id)
            (Ref.canonical (Ref.tagged nm tg).name dgst)).isSome = true
          rw [show (Ref.tagged nm tg).name = nm from rfl,
            refGet_set_ne _ _ _ _ (fun hc => Ref.noConfusion hc)]
          exact hsome
  | nameOnly nm => exact absurd rfl (hnn nm)

theorem pullTag_error_reliable (goos : String) (fuel : Nat) (reg : Registry)
    (platform : Platform) (st : LocalState) (ref : Ref) (st1 : LocalState)
    (e : PullError) (hrel : st.refStore.failing = [])
    (h : pullTag goos fuel reg platform st ref = (st1, .error e)) : st1 = st := by
  cases hres : resolveTagOrDigest reg ref with
  | error e0 =>
    rw [pullTag_resolve_err goos fuel reg platform st ref e0 hres] at h
    injection h with h1 h2
    exact h1.symm
  | ok dgst =>
    cases hm : reg.manifests.lookup dgst with
    | none =>
      rw [pullTag_lookup_none goos fuel reg platform st ref dgst hres hm] at h
      injection h with h1 h2
      exact h1.symm
    | some m =>
      rcases hpm : pullManifest goos fuel reg platform st m with ⟨st', r⟩
      match r, hpm with
      | .error e0, hpm =>
        rw [pullTag_manifest_err goos fuel reg platform st ref dgst m st' e0
          hres hm hpm] at h
        injection h with h1 h2
        exact h1.symm.trans
          (pullManifest_error goos fuel reg platform st m st' e0 hpm)
      | .ok (id, n), hpm =>
        rw [pullTag_resolved goos fuel reg platform st ref dgst m st' id n
          hres hm hpm] at h
        have hfail : st'.refStore.failing = [] := by
          rw [(pullManifest_ok goos fuel reg platform st m st' id n hpm).2, hrel]
        cases hget : st'.refStore.get ref with
        | some old =>
          rw [hget] at h
          dsimp only at h
          by_cases hid : old = id
          · rw [if_pos hid] at h
            obtain ⟨rs, hadr⟩ := addDigestReference_ok_of_not_failing
              st'.refStore ref.name dgst id (by rw [hfail]; exact List.not_mem_nil _)
            rw [hadr] at h
            dsimp only at h
            injection h with h1 h2
            exact Except.noConfusion h2
          · rw [if_neg hid] at h
            obtain ⟨st2, b, hpa⟩ := pullTagAdd_no_error st' ref dgst id hfail
            rw [hpa] at h
            injection h with h1 h2
            exact Except.noConfusion h2
        | none =>
          rw [hget] at h
          dsimp only at h
          obtain ⟨st2, b, hpa⟩ := pullTagAdd_no_error st' ref dgst id hfail
          rw [hpa] at h
          injection h with h1 h2
          exact Except.noConfusion h2

theorem resolve_canonical_eq (reg : Registry) (nm d dgst : String)
    (hres : resolveTagOrDigest reg (.canonical nm d) = .ok dgst) : d = dgst := by
  unfold resolveTagOrDigest at hres
  injection hres

theorem pullTag_ok_state (goos : String) (fuel : Nat) (reg : Registry)
    (platform : Platform) (st : LocalState) (ref : Ref) (dgst : Digest)
    (m : Manifest) (st' : LocalState) (id : ImageID) (n : Nat)
    (st1 : LocalState) (b : Bool)
    (hnn : ∀ nm, ref ≠ .nameOnly nm)
    (hres : resolveTagOrDigest reg ref = .ok dgst)
    (hm : reg.manifests.lookup dgst = some m)
    (hpm : pullManifest goos fuel reg platform st m = (st', .ok (id, n)))
    (h1 : pullTag goos fuel reg platform st ref = (st1, .ok b)) :
    st1.imageStore = st'.imageStore ∧
    st1.refStore.get ref = some id ∧
    (st1.refStore.get (.canonical ref.name dgst)).isSome = true := by
  have hcanon : ∀ nm d, ref = .canonical nm d → d = dgst := by
    intro nm d he
    subst he
    exact resolve_canonical_eq reg nm d dgst hres
  rw [pullTag_resolved goos fuel reg platform st ref dgst m st' id n hres hm
    hpm] at h1
  cases hget : st'.refStore.get ref with
  | none =>
    rw [hget] at h1
    dsimp only at h1
    exact pullTagAdd_ok_props st' ref dgst id st1 b hnn hcanon h1
  | some old =>
    rw [hget] at h1
    dsimp only at h1
    by_cases hid : old = id
    · rw [if_pos hid] at h1
      cases hadr : addDigestReference st'.refStore ref.name dgst id with
      | error e =>
        rw [hadr] at h1
        dsimp only at h1
        injection h1 with ha hb
        exact Except.noConfusion hb
      | ok rs =>
        rw [hadr] at h1
        dsimp only at h1
        injection h1 with ha hb
        obtain ⟨hfl, hne, hcan, hsome⟩ :=
          addDigestReference_ok_props st'.refStore rs ref.name dgst id hadr
        refine ⟨by rw [← ha], ?_, ?_⟩
        · rw [← ha]
          show rs.get ref = some id
          by_cases href : ref = .canonical ref.name dgst
          · rcases hcan with hl | ⟨j, hj, hrs⟩
            · rw [href]
              exact hl
            · rw [hrs, hget, hid]
          · rw [hne ref href, hget, hid]
        · rw [← ha]
          exact hsome
    · rw [if_neg hid] at h1
      exact pullTagAdd_ok_props st' ref dgst id st1 b hnn hcanon h1

theorem pullTagAdd_imageStore (st' : LocalState) (ref : Ref) (dgst : Digest)
    (id : ImageID) (st1 : LocalState) (r : Except PullError Bool)
    (h : pullTagAdd st' ref dgst id = (st1, r)) :
    st1.imageStore = st'.imageStore := by
  unfold pullTagAdd at h
  cases ref <;> dsimp only at h
  all_goals repeat' split at h
  all_goals injection h with ha hb
  all_goals rw [← ha]

theorem pullTag_refStore_commit (goos : String) (fuel : Nat) (reg : Registry)
    (platform : Platform) (st : LocalState) (ref : Ref) (st1 : LocalState)
    (r : Except PullError Bool)
    (h : pullTag goos fuel reg platform st ref = (st1, r))
    (hne : st1.refStore ≠ st.refStore) :
    ∃ dgst m st' id n, resolveTagOrDigest reg ref = .ok dgst ∧
      reg.manifests.lookup dgst = some m ∧
      pullManifest goos fuel reg platform st m = (st', .ok (id, n)) ∧
      st1.imageStore = st'.imageStore ∧
      st'.imageStore.contains id = true := by
  cases hres : resolveTagOrDigest reg ref with
  | error e0 =>
    rw [pullTag_resolve_err goos fuel reg platform st ref e0 hres] at h
    injection h with ha hb
    exact absurd (by rw [← ha]) hne
  | ok dgst =>
    cases hm : reg.manifests.lookup dgst with
    | none =>
      rw [pullTag_lookup_none goos fuel reg platform st ref dgst hres hm] at h
      injection h with ha hb
      exact absurd (by rw [← ha]) hne
    | some m =>
      rcases hpm : pullManifest goos fuel reg platform st m with ⟨st', r0⟩
      match r0, hpm with
      | .error e0, hpm =>
        rw [pullTag_manifest_err goos fuel reg platform st ref dgst m st' e0
          hres hm hpm] at h
        injection h with ha hb
        have hst : st' = st :=
          pullManifest_error goos fuel reg platform st m st' e0 hpm
        exact absurd (by rw [← ha, hst]) hne
      | .ok (id, n), hpm =>
        have hcontains :=
          (pullManifest_ok goos fuel reg platform st m st' id n hpm).1
        refine ⟨dgst, m, st', id, n, rfl, hm, hpm, ?_, hcontains⟩
        rw [pullTag_resolved goos fuel reg platform st ref dgst m st' id n
          hres hm hpm] at h
        cases hget : st'.refStore.get ref with
        | none =>
          rw [hget] at h
          dsimp only at h
          exact pullTagAdd_imageStore st' ref dgst id st1 r h
        | some old =>
          rw [hget] at h
          dsimp only at h
          by_cases hid : old = id
          · rw [if_pos hid] at h
            cases hadr : addDigestReference st'.refStore ref.name dgst id with
            | error e =>
              rw [hadr] at h
              dsimp only at h
              injection h with ha hb
              rw [← ha]
            | ok rs =>
              rw [hadr] at h
              dsimp only at h
              injection h with ha hb
              rw [← ha]
          · rw [if_neg hid] at h
            exact pullTagAdd_imageStore st' ref dgst id st1 r h

theorem pullAllTagsGo_cons (goos : String) (fuel : Nat) (reg : Registry)
    (platform : Platform) (nm : String) (st : LocalState) (t : String)
    (ts : List String) :
    pullAllTagsGo goos fuel reg platform nm st (t :: ts)
      = (match pullTag goos fuel reg platform st (.tagged nm t) with
        | (st', .error e) => (st', .error e)
        | (st', .ok updated) =>
          match pullAllTagsGo goos fuel reg platform nm st' ts with
          | (st'', .error e) => (st'', .error e)
          | (st'', .ok any) => (st'', .ok (updated || any))) := rfl

theorem pullRepository_single (goos : String) (fuel : Nat) (reg : Registry)
    (platform : Platform) (st : LocalState) (ref : Ref)
    (hnn : ∀ nm, ref ≠ .nameOnly nm) :
    pullRepository goos fuel reg platform st ref
      = pullTag goos fuel reg platform st ref := by
  cases ref with
  | tagged nm tg => rfl
  | canonical nm d => rfl
  | nameOnly nm => exact absurd rfl (hnn nm)

/-! ## Claim theorems -/

/-- Claim C1: for a schema2/OCI pull that is not short-circuited (the target
config digest is not yet in the image store), success forces the downloaded
diff-IDs to equal the config's declared RootFS diff-IDs in count and
position, with the reported count being the manifest's layer count; and
whenever the downloaded diff-IDs differ from the declared ones the pull
returns errRootFSMismatch with the state — in particular the image store —
unchanged. -/
theorem schema2_rootfs_alignment (reg : Registry) (st : LocalState)
    (target : Digest) (layers : List Digest)
    (hsc : st.imageStore.contains target = false) :
    (∀ st' id n, pullSchema2Layers reg st target layers = (st', .ok (id, n)) →
      n = layers.length ∧
      ∃ cfg dl, pullSchema2Config reg target = .ok cfg ∧
        downloadLayers reg layers = .ok dl ∧
        dl.length = cfg.diffIDs.length ∧ dl = cfg.diffIDs) ∧
    (∀ cfg dl, pullSchema2Config reg target = .ok cfg →
      downloadLayers reg layers = .ok dl → dl ≠ cfg.diffIDs →
      pullSchema2Layers reg st target layers
        = (st, .error .errRootFSMismatch)) := by
  have hc : ¬ (st.imageStore.contains target = true) := by
    rw [hsc]
    exact Bool.false_ne_true
  constructor
  · intro st' id n h
    unfold pullSchema2Layers at h
    rw [if_neg hc] at h
    cases hcfg : pullSchema2Config reg target with
    | error e0 => rw [hcfg] at h; simp at h
    | ok cfg =>
      rw [hcfg] at h
      dsimp only at h
      cases hdl : downloadLayers reg layers with
      | error e0 => rw [hdl] at h; simp at h
      | ok dl =>
        rw [hdl] at h
        dsimp only at h
        by_cases hlen : dl.length = cfg.diffIDs.length
        · rw [if_neg (by simp [hlen])] at h
          by_cases heq : dl = cfg.diffIDs
          · rw [if_neg (by simp [heq])] at h
            injection h with h1 h2
            injection h2 with h3
            injection h3 with h4 h5
            exact ⟨h5.symm, cfg, dl, rfl, rfl, hlen, heq⟩
          · rw [if_pos heq] at h; simp at h
        · rw [if_pos hlen] at h; simp at h
  · intro cfg dl hcfg hdl hne
    unfold pullSchema2Layers
    rw [if_neg hc, hcfg]
    dsimp only
    rw [hdl]
    dsimp only
    by_cases hlen : dl.length = cfg.diffIDs.length
    · rw [if_neg (by simp [hlen]), if_pos hne]
    · rw [if_pos hlen]

/-- Claim C1 witness: a concrete registry whose downloaded diff-ID disagrees
with the config's declared one is rejected with errRootFSMismatch and the
state is unchanged. -/
theorem schema2_rootfs_alignment_witness :
    st0.imageStore.contains "sha256:x" = false ∧
    pullSchema2Layers regMis st0 "sha256:x" ["L1"]
      = (st0, .error .errRootFSMismatch) :=
  ⟨rfl, (schema2_rootfs_alignment regMis st0 "sha256:x" ["L1"] rfl).2
    ⟨["x"]⟩ ["y"] rfl rfl (by decide)⟩

/-- Claim C5 counterexample: the claim's nested-error policy is inverted
relative to the code.  In `regC5`, the candidate "dNest" is a nested
manifest list whose pull fails with manifestNotFound (not noMatchesErr):
the claim says this aborts and propagates, but the pull continues and
succeeds on the next candidate "dGood".  The candidate "dEmpty" is a nested
manifest list whose pull fails with noMatchesErr: the claim says the loop
continues with the next candidate, but the pull returns noMatchesErr
immediately even though "dGood" alone would succeed. -/
theorem manifest_list_selection_counterexample :
    pullManifestList "linux" 1 regC5 pW st0 [(pW, "dMissing")]
        = (st0, .error .manifestNotFound) ∧
    (pullManifestList "linux" 2 regC5 pW st0 [(pW, "dNest"), (pW, "dGood")]).2
        = .ok ("sha256:", 0) ∧
    pullManifestList "linux" 1 regC5 pW st0 []
        = (st0, .error .noMatchesErr) ∧
    pullManifestList "linux" 2 regC5 pW st0 [(pW, "dEmpty"), (pW, "dGood")]
        = (st0, .error .noMatchesErr) ∧
    (pullManifestList "linux" 2 regC5 pW st0 [(pW, "dGood")]).2
        = .ok ("sha256:", 0) :=
  ⟨rfl, rfl, rfl, rfl, rfl⟩

/-- Claim C5 (amended): exhausting the ranked candidates (in particular when
no entry matches the platform) returns noMatchesErr, and every error return
of pullManifestList leaves the state unchanged (nothing committed); the
candidate loop is the `pullMatches` recursion; a nested manifest list
failing with any error other than noMatchesErr makes the loop continue with
the next ranked candidate, while a nested noMatchesErr is returned
immediately. -/
theorem manifest_list_selection (goos : String) (reg : Registry)
    (platform : Platform) (fuel : Nat) (st st' : LocalState)
    (entries : List (Platform × Digest)) (e : Platform × Digest)
    (rest es : List (Platform × Digest)) (err : PullError) :
    (filterManifests entries platform = [] →
      pullManifestList goos (fuel + 1) reg platform st entries
        = (st, .error .noMatchesErr)) ∧
    (∀ st1 e1, pullManifestList goos fuel reg platform st entries
        = (st1, .error e1) → st1 = st) ∧
    (pullManifestList goos (fuel + 1) reg platform st entries
      = (match pullMatches goos reg platform fuel st
            (filterManifests entries platform) with
        | (s1, none) => (s1, .error .noMatchesErr)
        | (s1, some r) => (s1, r))) ∧
    (reg.manifests.lookup e.2 = some (.mlist es) →
      pullManifestList goos fuel reg platform st es
        = (st', .error .noMatchesErr) →
      pullMatches goos reg platform fuel st (e :: rest)
        = (st', some (.error .noMatchesErr))) ∧
    (reg.manifests.lookup e.2 = some (.mlist es) →
      pullManifestList goos fuel reg platform st es = (st', .error err) →
      err ≠ .noMatchesErr →
      pullMatches goos reg platform fuel st (e :: rest)
        = pullMatches goos reg platform fuel st' rest) := by
  refine ⟨?_, ?_, pullManifestList_succ goos fuel reg platform st entries,
    ?_, ?_⟩
  · intro hfe
    rw [pullManifestList_succ, hfe, pullMatches_nil]
  · intro st1 e1 h
    exact pullManifestList_error goos fuel reg platform st entries st1 e1 h
  · intro hm hnested
    rw [pullMatches_cons, hm]
    dsimp only
    rw [hnested]
    dsimp only
    rw [if_pos rfl]
  · intro hm hnested hne
    rw [pullMatches_cons, hm]
    dsimp only
    rw [hnested]
    dsimp only
    rw [if_neg hne]

/-- Claim C5 witness: on `regC5` the loop skips past the candidate whose
nested pull failed with manifestNotFound, and stops on the candidate whose
nested pull failed with noMatchesErr. -/
theorem manifest_list_selection_witness :
    pullMatches "linux" regC5 pW 1 st0 [(pW, "dNest"), (pW, "dGood")]
      = pullMatches "linux" regC5 pW 1 st0 [(pW, "dGood")] ∧
    pullMatches "linux" regC5 pW 1 st0 [(pW, "dEmpty"), (pW, "dGood")]
      = (st0, some (.error .noMatchesErr)) :=
  ⟨(manifest_list_selection "linux" regC5 pW 1 st0 st0 [] (pW, "dNest")
      [(pW, "dGood")] [(pW, "dMissing")] .manifestNotFound).2.2.2.2
      rfl rfl (by decide),
   (manifest_list_selection "linux" regC5 pW 1 st0 st0 [] (pW, "dEmpty")
      [(pW, "dGood")] [] .noMatchesErr).2.2.2.1 rfl rfl⟩

/-- Claim C6: when the schema2/OCI target digest is already in the image
store the puller returns it with zero downloads and unchanged state; hence
after any successful pull of a schema2 reference, a second pull of the same
reference from the resulting state yields the same image ID with zero layer
downloads, reports "up to date" (false), and leaves the state fixed. -/
theorem pull_idempotent (goos : String) (fuel : Nat) (reg : Registry)
    (platform : Platform) (st : LocalState) (ref : Ref) (dgst : Digest)
    (cd : Digest) (lds : List Digest) (st1 : LocalState) (b : Bool)
    (hnn : ∀ nm, ref ≠ .nameOnly nm)
    (hres : resolveTagOrDigest reg ref = .ok dgst)
    (hm : reg.manifests.lookup dgst = some (.schema2 cd lds))
    (h1 : pullTag goos fuel reg platform st ref = (st1, .ok b)) :
    (∀ s : LocalState, s.imageStore.contains cd = true →
      pullSchema2Layers reg s cd lds = (s, .ok (cd, 0))) ∧
    pullSchema2Layers reg st1 cd lds = (st1, .ok (cd, 0)) ∧
    pullTag goos fuel reg platform st1 ref = (st1, .ok false) := by
  have hshort : ∀ s : LocalState, s.imageStore.contains cd = true →
      pullSchema2Layers reg s cd lds = (s, .ok (cd, 0)) := by
    intro s hs
    unfold pullSchema2Layers
    rw [if_pos hs]
  rcases hpm0 : pullManifest goos fuel reg platform st (.schema2 cd lds)
    with ⟨st', r0⟩
  match r0, hpm0 with
  | .error e0, hpm0 =>
    rw [pullTag_manifest_err goos fuel reg platform st ref dgst _ st' e0 hres
      hm hpm0] at h1
    injection h1 with ha hb
    exact Except.noConfusion hb
  | .ok (id0, n0), hpm0 =>
    have hsl : pullSchema2Layers reg st cd lds = (st', .ok (id0, n0)) := by
      rw [← pullManifest_schema2_eq goos fuel reg platform st cd lds]
      exact hpm0
    obtain ⟨hid0, hcontains', hrs'⟩ :=
      pullSchema2Layers_ok reg st cd lds st' id0 n0 hsl
    obtain ⟨him, hgetref, hsome⟩ := pullTag_ok_state goos fuel reg platform st
      ref dgst _ st' id0 n0 st1 b hnn hres hm hpm0 h1
    have hcont1 : st1.imageStore.contains cd = true := by
      rw [him]
      exact hcontains'
    have hsl2 : pullSchema2Layers reg st1 cd lds = (st1, .ok (cd, 0)) :=
      hshort st1 hcont1
    refine ⟨hshort, hsl2, ?_⟩
    have hpm2 : pullManifest goos fuel reg platform st1 (.schema2 cd lds)
        = (st1, .ok (cd, 0)) := by
      rw [pullManifest_schema2_eq]
      exact hsl2
    rw [pullTag_resolved goos fuel reg platform st1 ref dgst _ st1 cd 0 hres
      hm hpm2]
    have hget1 : st1.refStore.get ref = some cd := by rw [hgetref, hid0]
    rw [hget1]
    dsimp only
    rw [if_pos rfl]
    obtain ⟨j, hj⟩ := Option.isSome_iff_exists.mp hsome
    have hADR : addDigestReference st1.refStore ref.name dgst cd
        = .ok st1.refStore := by
      unfold addDigestReference
      rw [hj]
    rw [hADR]

/-- Claim C6 witness: pulling regT's tag "t1" again from the state produced
by its first pull returns the same state with "up to date". -/
theorem pull_idempotent_witness :
    pullTag "linux" 1 regT pW
        ⟨⟨[("sha256:d1", "d1")]⟩,
          ⟨[(.canonical "r" "mdig", "sha256:d1"),
            (.tagged "r" "t1", "sha256:d1")], []⟩⟩ (.tagged "r" "t1")
      = (⟨⟨[("sha256:d1", "d1")]⟩,
          ⟨[(.canonical "r" "mdig", "sha256:d1"),
            (.tagged "r" "t1", "sha256:d1")], []⟩⟩, .ok false) :=
  (pull_idempotent "linux" 1 regT pW st0 (.tagged "r" "t1") "mdig"
    "sha256:d1" ["L1"]
    ⟨⟨[("sha256:d1", "d1")]⟩,
      ⟨[(.canonical "r" "mdig", "sha256:d1"),
        (.tagged "r" "t1", "sha256:d1")], []⟩⟩ true
    (fun nm h => Ref.noConfusion h) rfl rfl rfl).2.2

/-- Claim C7: when the reference store (with a reliable backend) already
maps the pulled tag to the resulting image ID, pullTag performs only the
digest association — every reference other than the canonical one is
untouched — and reports false (up to date); when the mapping is absent or
points to a different ID, the digest association and then the tag
association are added and true (new content) is reported. -/
theorem tag_reference_reconciliation (goos : String) (fuel : Nat)
    (reg : Registry) (platform : Platform) (st : LocalState) (nm tg : String)
    (dgst : Digest) (m : Manifest) (st' : LocalState) (id : ImageID) (n : Nat)
    (hres : resolveTagOrDigest reg (.tagged nm tg) = .ok dgst)
    (hm : reg.manifests.lookup dgst = some m)
    (hpm : pullManifest goos fuel reg platform st m = (st', .ok (id, n)))
    (hfail : st'.refStore.failing = []) :
    (st'.refStore.get (.tagged nm tg) = some id →
      ∃ rs, addDigestReference st'.refStore nm dgst id = .ok rs ∧
        pullTag goos fuel reg platform st (.tagged nm tg)
          = ({ st' with refStore := rs }, .ok false) ∧
        (∀ r : Ref, r ≠ .canonical nm dgst → rs.get r = st'.refStore.get r) ∧
        (rs.get (.canonical nm dgst)).isSome = true) ∧
    (∀ old, st'.refStore.get (.tagged nm tg) = some old → old ≠ id →
      ∃ rs rs2, addDigestReference st'.refStore nm dgst id = .ok rs ∧
        rs.addTag nm tg id = .ok rs2 ∧
        pullTag goos fuel reg platform st (.tagged nm tg)
          = ({ st' with refStore := rs2 }, .ok true) ∧
        rs2.get (.tagged nm tg) = some id ∧
        (rs2.get (.canonical nm dgst)).isSome = true) ∧
    (st'.refStore.get (.tagged nm tg) = none →
      ∃ rs rs2, addDigestReference st'.refStore nm dgst id = .ok rs ∧
        rs.addTag nm tg id = .ok rs2 ∧
        pullTag goos fuel reg platform st (.tagged nm tg)
          = ({ st' with refStore := rs2 }, .ok true) ∧
        rs2.get (.tagged nm tg) = some id ∧
        (rs2.get (.canonical nm dgst)).isSome = true) := by
  obtain ⟨rs, hadr⟩ := addDigestReference_ok_of_not_failing st'.refStore nm
    dgst id (by rw [hfail]; exact List.not_mem_nil _)
  obtain ⟨hfl, hne, hcan, hsome⟩ := addDigestReference_ok_props _ rs _ _ _ hadr
  have hmem2 : (Ref.tagged nm tg) ∉ rs.failing := by
    rw [hfl, hfail]
    exact List.not_mem_nil _
  have hat := addTag_ok rs nm tg id hmem2
  have hpta : pullTagAdd st' (.tagged nm tg) dgst id
      = ({ st' with refStore := ⟨refSet rs.entries (.tagged nm tg) id,
          rs.failing⟩ }, .ok true) := by
    have hstep : pullTagAdd st' (.tagged nm tg) dgst id
        = (match addDigestReference st'.refStore nm dgst id with
          | Except.error e => (st', Except.error e)
          | Except.ok rs =>
            match rs.addTag nm tg id with
            | Except.error e => ({ st' with refStore := rs }, Except.error e)
            | Except.ok rs2 =>
              ({ st' with refStore := rs2 }, Except.ok true)) := rfl
    rw [hstep, hadr]
    dsimp only
    rw [hat]
  have hresolved := pullTag_resolved goos fuel reg platform st (.tagged nm tg)
    dgst m st' id n hres hm hpm
  refine ⟨?_, ?_, ?_⟩
  · intro hget
    refine ⟨rs, hadr, ?_, hne, hsome⟩
    rw [hresolved, hget]
    dsimp only [Ref.name]
    rw [if_pos rfl, hadr]
  · intro old hget hold
    refine ⟨rs, ⟨refSet rs.entries (.tagged nm tg) id, rs.failing⟩, hadr, hat,
      ?_, ?_, ?_⟩
    · rw [hresolved, hget]
      dsimp only [Ref.name]
      rw [if_neg hold, hpta]
    · show refGet (refSet rs.entries (.tagged nm tg) id) (.tagged nm tg)
        = some id
      exact refGet_set_self _ _ _
    · show (refGet (refSet rs.entries (.tagged nm tg) id)
        (.canonical nm dgst)).isSome = true
      rw [refGet_set_ne _ _ _ _ (fun hc => Ref.noConfusion hc)]
      exact hsome
  · intro hget
    refine ⟨rs, ⟨refSet rs.entries (.tagged nm tg) id, rs.failing⟩, hadr, hat,
      ?_, ?_, ?_⟩
    · rw [hresolved, hget]
      dsimp only [Ref.name]
      rw [hpta]
    · show refGet (refSet rs.entries (.tagged nm tg) id) (.tagged nm tg)
        = some id
      exact refGet_set_self _ _ _
    · show (refGet (refSet rs.entries (.tagged nm tg) id)
        (.canonical nm dgst)).isSome = true
      rw [refGet_set_ne _ _ _ _ (fun hc => Ref.noConfusion hc)]
      exact hsome

/-- Claim C7 witness: pulling regT's tag "t1" from the empty state takes the
no-previous-mapping branch, adds digest and tag associations, and reports
new content. -/
theorem tag_reference_reconciliation_witness :
    ∃ rs rs2, addDigestReference stA.refStore "r" "mdig" "sha256:d1"
        = .ok rs ∧
      rs.addTag "r" "t1" "sha256:d1" = .ok rs2 ∧
      pullTag "linux" 1 regT pW st0 (.tagged "r" "t1")
        = ({ stA with refStore := rs2 }, .ok true) ∧
      rs2.get (.tagged "r" "t1") = some "sha256:d1" ∧
      (rs2.get (.canonical "r" "mdig")).isSome = true :=
  (tag_reference_reconciliation "linux" 1 regT pW st0 "r" "t1" "mdig"
    (.schema2 "sha256:d1" ["L1"]) stA "sha256:d1" 1 rfl rfl rfl rfl).2.2 rfl

/-- Claim C2 counterexample: the claim quantifies over every pull
invocation, but the all-tags loop aborts mid-way without rollback even with
a fully reliable reference-store backend: pulling regT by bare name errors
on the second tag, yet the state differs from the initial one and the first
tag's image remains committed. -/
theorem pull_error_state_counterexample :
    (pullRepository "linux" 1 regT pW st0 (.nameOnly "r")).2
        = .error .manifestNotFound ∧
    (pullRepository "linux" 1 regT pW st0 (.nameOnly "r")).1 ≠ st0 ∧
    (pullRepository "linux" 1 regT pW st0
        (.nameOnly "r")).1.imageStore.contains "sha256:d1" = true ∧
    st0.refStore.failing = [] := by
  refine ⟨rfl, ?_, rfl, rfl⟩
  decide

/-- Claim C2 (amended): a single-reference (tagged or canonical) pull that
returns an error leaves the state unchanged provided the reference store's
backend is reliable (no failing writes); and any pull whose reference store
differs from the initial one contains a successful manifest pull whose
resulting image ID was committed to the image store before the reference
mutation. -/
theorem single_ref_pull_error_state (goos : String) (fuel : Nat)
    (reg : Registry) (platform : Platform) (st : LocalState) (ref : Ref)
    (hnn : ∀ nm, ref ≠ .nameOnly nm) :
    (st.refStore.failing = [] →
      ∀ st1 e, pullRepository goos fuel reg platform st ref = (st1, .error e) →
        st1 = st) ∧
    (∀ st1 r, pullRepository goos fuel reg platform st ref = (st1, r) →
      st1.refStore ≠ st.refStore →
      ∃ dgst m st' id n, resolveTagOrDigest reg ref = .ok dgst ∧
        reg.manifests.lookup dgst = some m ∧
        pullManifest goos fuel reg platform st m = (st', .ok (id, n)) ∧
        st1.imageStore = st'.imageStore ∧
        st'.imageStore.contains id = true) := by
  constructor
  · intro hrel st1 e h
    rw [pullRepository_single goos fuel reg platform st ref hnn] at h
    exact pullTag_error_reliable goos fuel reg platform st ref st1 e hrel h
  · intro st1 r h hne
    rw [pullRepository_single goos fuel reg platform st ref hnn] at h
    exact pullTag_refStore_commit goos fuel reg platform st ref st1 r h hne

/-- Claim C2 witness: the failing single-tag pull of regT's dangling tag
"t2" from the empty (reliable) state leaves the state unchanged. -/
theorem single_ref_pull_error_state_witness :
    (pullRepository "linux" 1 regT pW st0 (.tagged "r" "t2")).1 = st0 :=
  (single_ref_pull_error_state "linux" 1 regT pW st0 (.tagged "r" "t2")
    (fun nm h => Ref.noConfusion h)).1 rfl _ .manifestNotFound rfl

/-- Claim C8: a name-only pull is the sequential loop over all the
repository's enumerated tags; an error pulling any one tag makes the whole
loop return that error immediately from that tag's failure state (the
remaining tags are never attempted), while a successful tag continues the
loop from the resulting state, aggregating whether any tag was updated. -/
theorem all_tags_abort (goos : String) (fuel : Nat) (reg : Registry)
    (platform : Platform) (nm : String) :
    (∀ st, pullRepository goos fuel reg platform st (.nameOnly nm)
      = pullAllTagsGo goos fuel reg platform nm st (reg.tags.map (·.1))) ∧
    (∀ st t rest st2 e,
      pullTag goos fuel reg platform st (.tagged nm t) = (st2, .error e) →
      pullAllTagsGo goos fuel reg platform nm st (t :: rest)
        = (st2, .error e)) ∧
    (∀ st t rest st2 u,
      pullTag goos fuel reg platform st (.tagged nm t) = (st2, .ok u) →
      pullAllTagsGo goos fuel reg platform nm st (t :: rest)
        = (match pullAllTagsGo goos fuel reg platform nm st2 rest with
          | (st3, .error e) => (st3, .error e)
          | (st3, .ok any) => (st3, .ok (u || any)))) := by
  refine ⟨fun st => rfl, ?_, ?_⟩
  · intro st t rest st2 e h
    rw [pullAllTagsGo_cons, h]
  · intro st t rest st2 u h
    rw [pullAllTagsGo_cons, h]

/-- Claim C8 witness: from the state left by regT's first tag, the loop on
the dangling tag "t2" aborts with its error and that failure state. -/
theorem all_tags_abort_witness :
    pullAllTagsGo "linux" 1 regT pW "r"
        ⟨⟨[("sha256:d1", "d1")]⟩,
          ⟨[(.canonical "r" "mdig", "sha256:d1"),
            (.tagged "r" "t1", "sha256:d1")], []⟩⟩ ["t2"]
      = (⟨⟨[("sha256:d1", "d1")]⟩,
          ⟨[(.canonical "r" "mdig", "sha256:d1"),
            (.tagged "r" "t1", "sha256:d1")], []⟩⟩,
        .error .manifestNotFound) :=
  (all_tags_abort "linux" 1 regT pW "r").2.1 _ "t2" [] _ .manifestNotFound rfl

end MobyPull
